import Mathlib

/-!
Shallow embedding of the borrowing / return / reservation lifecycle of the
library management system (Django app `books` + `library_users`).

Sources embedded here:
  - src/books/models.py        (Book, Borrower, BorrowRequest, ReturnRequest,
                                BookReservation; Borrower.is_overdue,
                                Borrower.calculate_fine)
  - src/library_users/models.py (UserProfileinfo, can_borrow_books)
  - src/books/views.py         (borrow_book, approve_borrow_request,
                                deny_borrow_request, return_book,
                                approve_return_request, deny_return_request,
                                process_return_directly, reserve_book)
  - src/books/api_views.py     (BookViewSet.borrow, BookViewSet.reserve)
  - src/books/tasks.py         (cleanup_expired_reservations)

Dates are modelled as integer day numbers (a `DateField` value is the count of
days from an arbitrary epoch); `date.today()` becomes an explicit `today`
parameter.  Decimal money amounts are modelled as rationals.  Database rows
are lists of records keyed by an integer primary key `id`; `Model.save()`
writes the row back by primary key.
-/

namespace Library

/-- Status choices of `Borrower.STATUS_CHOICES` in src/books/models.py. -/
inductive LoanStatus
  | borrowed
  | returned
  | overdue
  | lost
deriving DecidableEq, Repr

/-- Status choices shared by `BorrowRequest` and `ReturnRequest`. -/
inductive ReqStatus
  | pending
  | approved
  | denied
  | cancelled
deriving DecidableEq, Repr

/-- Status choices of `BookReservation.STATUS_CHOICES`. -/
inductive ResStatus
  | active
  | fulfilled
  | cancelled
  | expired
deriving DecidableEq, Repr

/-- Status choices of `UserProfileinfo.STATUS_CHOICES`. -/
inductive MemberStatus
  | active
  | suspended
  | expired
  | pending
deriving DecidableEq, Repr

/-- `Book` (src/books/models.py): only the behaviourally relevant fields. -/
structure Book where
  id : Nat
  is_available : Bool
deriving DecidableEq, Repr

/-- `UserProfileinfo` (src/library_users/models.py): membership fields that the
lending engine reads or writes. -/
structure Member where
  id : Nat
  status : MemberStatus
  max_books_allowed : Nat
  current_books_count : Nat
  total_fines : Rat
deriving DecidableEq, Repr

/-- `Borrower` (src/books/models.py): one borrowing episode. -/
structure Loan where
  id : Nat
  bookId : Nat
  borrowerId : Nat
  borrow_date : Int
  due_date : Int
  return_date : Option Int
  status : LoanStatus
  fine_amount : Rat
deriving DecidableEq, Repr

/-- `BorrowRequest` (src/books/models.py). -/
structure BorrowRequest where
  id : Nat
  bookId : Nat
  requesterId : Nat
  requested_duration_days : Nat
  status : ReqStatus
deriving DecidableEq, Repr

/-- `ReturnRequest` (src/books/models.py): references a `Borrower` row. -/
structure ReturnRequest where
  id : Nat
  borrowingId : Nat
  requesterId : Nat
  status : ReqStatus
deriving DecidableEq, Repr

/-- `BookReservation` (src/books/models.py). -/
structure Reservation where
  id : Nat
  bookId : Nat
  userId : Nat
  reservation_date : Int
  expiry_date : Int
  status : ResStatus
deriving DecidableEq, Repr

/-- `Borrower.is_overdue` (src/books/models.py line 141):
`self.due_date < date.today() and self.status == 'borrowed'`. -/
def Loan.is_overdue (l : Loan) (today : Int) : Bool :=
  decide (l.due_date < today) && (l.status == LoanStatus.borrowed)

/-- `Borrower.calculate_fine` (src/books/models.py line 146):
if overdue, `(date.today() - self.due_date).days * daily_fine`, else `0.00`.
The Python default for `daily_fine` is `1.00`; callers in views.py use the
default. -/
def Loan.calculate_fine (l : Loan) (today : Int) (daily_fine : Rat) : Rat :=
  if l.is_overdue today then ((today - l.due_date : Int) : Rat) * daily_fine
  else 0

/-- `UserProfileinfo.can_borrow_books` (src/library_users/models.py line 53):
active status, below the book limit, and fines below the 50.00 ceiling. -/
def Member.can_borrow_books (m : Member) : Bool :=
  (m.status == MemberStatus.active) &&
  (m.current_books_count < m.max_books_allowed) &&
  decide (m.total_fines < 50)

/-- The relational store: one list per table, plus primary-key counters for the
tables the modelled operations insert into. -/
structure LibState where
  books : List Book
  members : List Member
  loans : List Loan
  borrowReqs : List BorrowRequest
  returnReqs : List ReturnRequest
  reservations : List Reservation
  nextLoanId : Nat
  nextBorrowReqId : Nat
  nextReturnReqId : Nat
  nextResId : Nat
deriving DecidableEq, Repr

/-- `Model.save()`: write a record back over every row with the same primary
key (with distinct keys, exactly the original row). -/
def saveById {α : Type} (getId : α → Nat) (xs : List α) (a : α) : List α :=
  xs.map (fun x => if getId x = getId a then a else x)

/-- `Book.objects.get(id=bid)` / `get_object_or_404(Book, id=bid)`. -/
def findBook (s : LibState) (bid : Nat) : Option Book :=
  s.books.find? (fun b => b.id == bid)

/-- `UserProfileinfo.objects.get(...)` by primary key. -/
def findMember (s : LibState) (mid : Nat) : Option Member :=
  s.members.find? (fun m => m.id == mid)

/-- `Borrower.objects.get(id=lid)` / `get_object_or_404(Borrower, id=lid)`. -/
def findLoan (s : LibState) (lid : Nat) : Option Loan :=
  s.loans.find? (fun l => l.id == lid)

/-- Error kinds of the lending / reservation engine (spec section 7). -/
inductive ErrKind
  | notFound
  | bookUnavailable
  | bookIsAvailable
  | bookNoLongerAvailable
  | duplicateRequest
  | alreadyReturned
  | alreadyProcessed
  | memberIneligible
deriving DecidableEq, Repr

/-- Fire-and-forget notification events emitted by the operations. -/
inductive Event
  | returnConfirmation (loanId : Nat)
  | reservationAvailable (reservationId : Nat)
deriving DecidableEq, Repr

/-- `borrow_book` (src/books/views.py line 633): submit a borrow request.
Checks the book is available and that no pending request for the same
(book, requester) pair exists; on success creates a pending `BorrowRequest`. -/
def borrow_book (s : LibState) (bookId memberId duration : Nat) :
    LibState × Except ErrKind (List Event) :=
  match findBook s bookId, findMember s memberId with
  | some book, some _ =>
    if book.is_available = false then (s, .error .bookUnavailable)
    else if s.borrowReqs.any (fun r =>
        r.bookId == bookId && r.requesterId == memberId &&
        r.status == ReqStatus.pending) then
      (s, .error .duplicateRequest)
    else
      let req : BorrowRequest :=
        { id := s.nextBorrowReqId, bookId := bookId, requesterId := memberId,
          requested_duration_days := duration, status := .pending }
      ({ s with borrowReqs := s.borrowReqs ++ [req],
                nextBorrowReqId := s.nextBorrowReqId + 1 }, .ok [])
  | _, _ => (s, .error .notFound)

/-- `BookViewSet.borrow` (src/books/api_views.py line 226): the REST-API
borrow submission.  Unlike the web view it checks `can_borrow_books`; its
duplicate check is on open borrowings (`return_date__isnull=True`), not on
pending requests. -/
def api_borrow (s : LibState) (bookId memberId duration : Nat) :
    LibState × Except ErrKind (List Event) :=
  match findBook s bookId with
  | none => (s, .error .notFound)
  | some book =>
    match findMember s memberId with
    | none => (s, .error .notFound)
    | some member =>
      if member.can_borrow_books = false then (s, .error .memberIneligible)
      else if book.is_available = false then (s, .error .bookUnavailable)
      else if s.loans.any (fun l =>
          l.bookId == bookId && l.borrowerId == memberId &&
          l.return_date == none) then
        (s, .error .duplicateRequest)
      else
        let req : BorrowRequest :=
          { id := s.nextBorrowReqId, bookId := bookId, requesterId := memberId,
            requested_duration_days := duration, status := .pending }
        ({ s with borrowReqs := s.borrowReqs ++ [req],
                  nextBorrowReqId := s.nextBorrowReqId + 1 }, .ok [])

/-- `approve_borrow_request` (src/books/views.py line 713).
Looks up the request with `get_object_or_404(BorrowRequest, id, status
pending)`, re-checks `book.is_available`; on success creates a `Borrower` row
with `due_date = today + requested_duration_days`, clears the availability
flag, increments the requester's `current_books_count` and marks the request
approved.  If the book is no longer available it only shows an error: the
request stays pending and nothing is mutated. -/
def approve_borrow_request (s : LibState) (today : Int) (requestId : Nat) :
    LibState × Except ErrKind (List Event) :=
  match s.borrowReqs.find? (fun r =>
      r.id == requestId && r.status == ReqStatus.pending) with
  | none => (s, .error .notFound)
  | some req =>
    match findBook s req.bookId with
    | none => (s, .error .notFound)
    | some book =>
      if book.is_available = false then (s, .error .bookNoLongerAvailable)
      else
        match findMember s req.requesterId with
        | none => (s, .error .notFound)
        | some requester =>
          let borrowing : Loan :=
            { id := s.nextLoanId, bookId := req.bookId,
              borrowerId := req.requesterId, borrow_date := today,
              due_date := today + (req.requested_duration_days : Int),
              return_date := none, status := .borrowed, fine_amount := 0 }
          ({ s with
              loans := s.loans ++ [borrowing],
              books := saveById Book.id s.books { book with is_available := false },
              members := saveById Member.id s.members
                { requester with current_books_count := requester.current_books_count + 1 },
              borrowReqs := saveById BorrowRequest.id s.borrowReqs
                { req with status := .approved },
              nextLoanId := s.nextLoanId + 1 }, .ok [])

/-- `deny_borrow_request` (src/books/views.py line 904): sets a pending
request to denied; nothing else is mutated. -/
def deny_borrow_request (s : LibState) (requestId : Nat) :
    LibState × Except ErrKind (List Event) :=
  match s.borrowReqs.find? (fun r =>
      r.id == requestId && r.status == ReqStatus.pending) with
  | none => (s, .error .notFound)
  | some req =>
    let req2 : BorrowRequest := { req with status := .denied }
    ({ s with borrowReqs := saveById BorrowRequest.id s.borrowReqs req2 }, .ok [])

/-- `return_book` (src/books/views.py line 936): submit a return request.
Rejects non-borrowed loans and duplicate pending return requests; on success
creates a pending `ReturnRequest`. -/
def return_book (s : LibState) (borrowingId memberId : Nat) :
    LibState × Except ErrKind (List Event) :=
  match findLoan s borrowingId, findMember s memberId with
  | some borrowing, some _ =>
    if borrowing.status ≠ LoanStatus.borrowed then (s, .error .alreadyReturned)
    else if s.returnReqs.any (fun r =>
        r.borrowingId == borrowingId && r.requesterId == memberId &&
        r.status == ReqStatus.pending) then
      (s, .error .duplicateRequest)
    else
      let req : ReturnRequest :=
        { id := s.nextReturnReqId, borrowingId := borrowingId,
          requesterId := memberId, status := .pending }
      ({ s with returnReqs := s.returnReqs ++ [req],
                nextReturnReqId := s.nextReturnReqId + 1 }, .ok [])
  | _, _ => (s, .error .notFound)

/-- The queryset `BookReservation.objects.filter(book, status active)
.order_by(reservation_date).first()`: the active reservation for the book with
the earliest `reservation_date` (first inserted among ties). -/
def first_active_reservation (resvs : List Reservation) (bid : Nat) :
    Option Reservation :=
  (resvs.filter (fun r => r.bookId == bid && r.status == ResStatus.active)).foldl
    (fun acc r =>
      match acc with
      | none => some r
      | some a => if r.reservation_date < a.reservation_date then some r else acc)
    none

/-- The loan/member/book mutations shared verbatim by
`approve_return_request` (src/books/views.py lines 787-814) and
`process_return_directly` (lines 987-1016):
sets `return_date = today` and `status = returned` on the borrowing, then
evaluates `borrowing.is_overdue` (on the already-mutated record) to decide
whether to set `fine_amount` and add the fine to the borrower's
`total_fines`; sets the book available and decrements the borrower's
`current_books_count`, clamped at zero. -/
def returnCore (s : LibState) (today : Int) (borrowing : Loan)
    (borrower : Member) (book : Book) : LibState :=
  let b1 : Loan := { borrowing with return_date := some today, status := .returned }
  let p : Loan × Member :=
    if b1.is_overdue today then
      ({ b1 with fine_amount := b1.calculate_fine today 1 },
       { borrower with total_fines := borrower.total_fines + b1.calculate_fine today 1 })
    else (b1, borrower)
  let borrower3 : Member :=
    if 0 < p.2.current_books_count then
      { p.2 with current_books_count := p.2.current_books_count - 1 }
    else
      { p.2 with current_books_count := 0 }
  { s with
      loans := saveById Loan.id s.loans p.1,
      books := saveById Book.id s.books { book with is_available := true },
      members := saveById Member.id s.members borrower3 }

/-- `approve_return_request` (src/books/views.py line 769).
Fetches the return request by id (any status), rejects non-pending requests,
rejects loans that are not in status borrowed, performs the shared return
mutations, marks the request approved, queues a return-confirmation email
and, if the book has active reservations, queues a reservation-available
notification for the earliest one; the reservation record itself is NOT
modified on this path. -/
def approve_return_request (s : LibState) (today : Int) (requestId : Nat) :
    LibState × Except ErrKind (List Event) :=
  match s.returnReqs.find? (fun r => r.id == requestId) with
  | none => (s, .error .notFound)
  | some rr =>
    if rr.status ≠ ReqStatus.pending then (s, .error .alreadyProcessed)
    else
      match findLoan s rr.borrowingId with
      | none => (s, .error .notFound)
      | some borrowing =>
        if borrowing.status ≠ LoanStatus.borrowed then (s, .error .alreadyReturned)
        else
          match findMember s borrowing.borrowerId, findBook s borrowing.bookId with
          | some borrower, some book =>
            let s2 := returnCore s today borrowing borrower book
            let rr2 : ReturnRequest := { rr with status := .approved }
            let s3 := { s2 with returnReqs := saveById ReturnRequest.id s2.returnReqs rr2 }
            let events :=
              match first_active_reservation s.reservations book.id with
              | some r => [Event.returnConfirmation borrowing.id,
                           Event.reservationAvailable r.id]
              | none => [Event.returnConfirmation borrowing.id]
            (s3, .ok events)
          | _, _ => (s, .error .notFound)

/-- `process_return_directly` (src/books/views.py line 979).
Direct return by borrowing id: rejects loans not in status borrowed, performs
the shared return mutations, and fulfils the earliest active reservation for
the book (setting its status to fulfilled) with a notification. -/
def process_return_directly (s : LibState) (today : Int) (borrowingId : Nat) :
    LibState × Except ErrKind (List Event) :=
  match findLoan s borrowingId with
  | none => (s, .error .notFound)
  | some borrowing =>
    if borrowing.status ≠ LoanStatus.borrowed then (s, .error .alreadyReturned)
    else
      match findMember s borrowing.borrowerId, findBook s borrowing.bookId with
      | some borrower, some book =>
        let s2 := returnCore s today borrowing borrower book
        match first_active_reservation s.reservations book.id with
        | some r =>
          let r2 : Reservation := { r with status := .fulfilled }
          ({ s2 with reservations := saveById Reservation.id s2.reservations r2 },
           .ok [Event.returnConfirmation borrowing.id,
                Event.reservationAvailable r.id])
        | none => (s2, .ok [Event.returnConfirmation borrowing.id])
      | _, _ => (s, .error .notFound)

/-- `deny_return_request` (src/books/views.py line 865): sets a pending return
request to denied; nothing else is mutated. -/
def deny_return_request (s : LibState) (requestId : Nat) :
    LibState × Except ErrKind (List Event) :=
  match s.returnReqs.find? (fun r => r.id == requestId) with
  | none => (s, .error .notFound)
  | some rr =>
    if rr.status ≠ ReqStatus.pending then (s, .error .alreadyProcessed)
    else
      let rr2 : ReturnRequest := { rr with status := .denied }
      ({ s with returnReqs := saveById ReturnRequest.id s.returnReqs rr2 }, .ok [])

/-- `reserve_book` (src/books/views.py line 1052); `BookViewSet.reserve`
(src/books/api_views.py line 291) performs the same checks and creation.
Reserving an available book is an error; an existing active reservation for
the same (book, user) pair is an error; otherwise creates an active
reservation expiring 7 days from today. -/
def reserve_book (s : LibState) (today : Int) (bookId memberId : Nat) :
    LibState × Except ErrKind (List Event) :=
  match findBook s bookId, findMember s memberId with
  | some book, some _ =>
    if book.is_available = true then (s, .error .bookIsAvailable)
    else if s.reservations.any (fun r =>
        r.bookId == bookId && r.userId == memberId &&
        r.status == ResStatus.active) then
      (s, .error .duplicateRequest)
    else
      let r : Reservation :=
        { id := s.nextResId, bookId := bookId, userId := memberId,
          reservation_date := today, expiry_date := today + 7,
          status := .active }
      ({ s with reservations := s.reservations ++ [r],
                nextResId := s.nextResId + 1 }, .ok [])
  | _, _ => (s, .error .notFound)

/-- `cleanup_expired_reservations` (src/books/tasks.py line 154): every active
reservation whose expiry date is before today becomes expired. -/
def cleanup_expired_reservations (s : LibState) (today : Int) :
    LibState × Except ErrKind (List Event) :=
  ({ s with reservations := s.reservations.map (fun r =>
      if r.expiry_date < today ∧ r.status = ResStatus.active then
        { r with status := .expired }
      else r) }, .ok [])

/-- One modelled operation of the lending / reservation engine. -/
inductive Op
  | submitBorrow (bookId memberId duration : Nat)
  | apiSubmitBorrow (bookId memberId duration : Nat)
  | approveBorrow (today : Int) (requestId : Nat)
  | denyBorrow (requestId : Nat)
  | submitReturn (borrowingId memberId : Nat)
  | approveReturn (today : Int) (requestId : Nat)
  | denyReturn (requestId : Nat)
  | directReturn (today : Int) (borrowingId : Nat)
  | reserve (today : Int) (bookId memberId : Nat)
  | expireReservations (today : Int)
deriving DecidableEq, Repr

/-- The state reached after one operation (errors leave the state unchanged,
as each view redirects without touching the database in its error branches). -/
def step (s : LibState) (op : Op) : LibState :=
  match op with
  | .submitBorrow b m d => (borrow_book s b m d).1
  | .apiSubmitBorrow b m d => (api_borrow s b m d).1
  | .approveBorrow today rid => (approve_borrow_request s today rid).1
  | .denyBorrow rid => (deny_borrow_request s rid).1
  | .submitReturn lid m => (return_book s lid m).1
  | .approveReturn today rid => (approve_return_request s today rid).1
  | .denyReturn rid => (deny_return_request s rid).1
  | .directReturn today lid => (process_return_directly s today lid).1
  | .reserve today b m => (reserve_book s today b m).1
  | .expireReservations today => (cleanup_expired_reservations s today).1

/-- Run a sequence of operations. -/
def run (s : LibState) (ops : List Op) : LibState :=
  ops.foldl step s

/-- Number of loans in status borrowed that reference a given book. -/
def borrowedCountBook (loans : List Loan) (bid : Nat) : Nat :=
  (loans.filter (fun l => l.bookId == bid && l.status == LoanStatus.borrowed)).length

/-- Number of loans in status borrowed held by a given member. -/
def borrowedCountMember (loans : List Loan) (mid : Nat) : Nat :=
  (loans.filter (fun l => l.borrowerId == mid && l.status == LoanStatus.borrowed)).length

/-- Consistency of a database state: distinct primary keys, loan keys below
the key counter, the availability flag of every book agrees with its count of
borrowed loans (which never exceeds one), and every member's
`current_books_count` equals their count of borrowed loans. -/
def WF (s : LibState) : Prop :=
  (s.books.map Book.id).Nodup ∧
  (s.members.map Member.id).Nodup ∧
  (s.loans.map Loan.id).Nodup ∧
  (∀ l ∈ s.loans, l.id < s.nextLoanId) ∧
  (∀ b ∈ s.books, borrowedCountBook s.loans b.id ≤ 1 ∧
      b.is_available = (borrowedCountBook s.loans b.id == 0)) ∧
  (∀ m ∈ s.members, m.current_books_count = borrowedCountMember s.loans m.id)

instance (s : LibState) : Decidable (WF s) := by
  unfold WF; infer_instance

/-- Pointwise comparison of two member tables: same members (by id, in order)
with the second table's fine balances at least the first's. -/
def finesLE (xs ys : List Member) : Prop :=
  List.Forall₂ (fun a b => a.id = b.id ∧ a.total_fines ≤ b.total_fines) xs ys

/-- The state components the invariant `WF` depends on are unchanged. -/
def coreEq (s t : LibState) : Prop :=
  t.books = s.books ∧ t.members = s.members ∧ t.loans = s.loans ∧
  t.nextLoanId = s.nextLoanId

/-- The safe decrement of `current_books_count` performed by both return
paths: decrement when positive, otherwise reset to zero (and log). -/
def clampDecrement (m : Member) : Member :=
  if 0 < m.current_books_count then
    { m with current_books_count := m.current_books_count - 1 }
  else
    { m with current_books_count := 0 }

/-- Example rows and states used by the concrete check theorems. -/
def exBook : Book := { id := 1, is_available := true }

def exBookOut : Book := { id := 1, is_available := false }

def exMember : Member :=
  { id := 1, status := .active, max_books_allowed := 5,
    current_books_count := 0, total_fines := 0 }

def exMemberOne : Member := { exMember with current_books_count := 1 }

def exMemberFull : Member := { exMember with current_books_count := 5 }

def exMemberZero : Member := exMember

/-- A loan due on day 0 (2024-01-01 of the worked example), still out. -/
def exLoan : Loan :=
  { id := 1, bookId := 1, borrowerId := 1, borrow_date := -14, due_date := 0,
    return_date := none, status := .borrowed, fine_amount := 0 }

def exReq : BorrowRequest :=
  { id := 1, bookId := 1, requesterId := 1, requested_duration_days := 14,
    status := .pending }

def exRetReq : ReturnRequest :=
  { id := 1, borrowingId := 1, requesterId := 1, status := .pending }

def exRes1 : Reservation :=
  { id := 1, bookId := 1, userId := 2, reservation_date := 0, expiry_date := 7,
    status := .active }

def exRes2 : Reservation :=
  { id := 2, bookId := 1, userId := 3, reservation_date := 1, expiry_date := 8,
    status := .active }

/-- An available book, a member with no books, and a pending borrow request. -/
def exStateBorrow : LibState :=
  { books := [exBook], members := [exMember], loans := [], borrowReqs := [exReq],
    returnReqs := [], reservations := [], nextLoanId := 1, nextBorrowReqId := 2,
    nextReturnReqId := 1, nextResId := 1 }

/-- The borrowed (and overdue, as of day 3) copy of the book, a pending return
request, and two active reservations (the earlier one by member 2). -/
def exStateReturn : LibState :=
  { books := [exBookOut], members := [exMemberOne], loans := [exLoan],
    borrowReqs := [], returnReqs := [exRetReq], reservations := [exRes2, exRes1],
    nextLoanId := 2, nextBorrowReqId := 1, nextReturnReqId := 2, nextResId := 3 }

/-- Like `exStateReturn` but with no reservations and no return request. -/
def exStateC1 : LibState :=
  { exStateReturn with returnReqs := [], reservations := [] }

/-- The pending request of `exStateBorrow`, but the requester is at the
borrowing limit (5 of 5) and hence not eligible. -/
def exStateFull : LibState := { exStateBorrow with members := [exMemberFull] }

/-- A drifted state: the loan is out but the borrower count is already 0. -/
def exStateClamp : LibState :=
  { exStateC1 with members := [exMemberZero] }

/-- The loan produced by approving `exReq` on day 0 and returning it on
day 5. -/
def exLoanRoundTrip : Loan :=
  { id := 1, bookId := 1, borrowerId := 1, borrow_date := 0, due_date := 14,
    return_date := some 5, status := .returned, fine_amount := 0 }


section Lemmas

variable {α : Type}

theorem saveById_map_id (getId : α → Nat) (xs : List α) (a : α) :
    (saveById getId xs a).map getId = xs.map getId := by
  induction xs with
  | nil => rfl
  | cons y t ih =>
    simp only [saveById, List.map_cons] at ih ⊢
    by_cases h : getId y = getId a
    · simp [h, ih]
    · simp [h, ih]

theorem mem_saveById {getId : α → Nat} {xs : List α} {a y : α}
    (h : y ∈ saveById getId xs a) : y = a ∨ (y ∈ xs ∧ getId y ≠ getId a) := by
  simp only [saveById, List.mem_map] at h
  obtain ⟨x, hx, hxy⟩ := h
  by_cases hc : getId x = getId a
  · left; simp [hc] at hxy; exact hxy.symm
  · right; simp [hc] at hxy; exact hxy ▸ ⟨hx, hc⟩

theorem saveById_eq_of_forall_ne {getId : α → Nat} {xs : List α} {a : α}
    (h : ∀ x ∈ xs, getId x ≠ getId a) : saveById getId xs a = xs := by
  induction xs with
  | nil => rfl
  | cons y t ih =>
    simp only [saveById, List.map_cons]
    rw [if_neg (h y (List.mem_cons_self y t))]
    have := ih (fun x hx => h x (List.mem_cons_of_mem y hx))
    simpa [saveById] using this

theorem length_filter_saveById (p : α → Bool) (getId : α → Nat)
    {xs : List α} {x : α} (a : α)
    (hnd : (xs.map getId).Nodup) (hx : x ∈ xs) (hid : getId x = getId a) :
    ((saveById getId xs a).filter p).length + (if p x = true then 1 else 0)
      = (xs.filter p).length + (if p a = true then 1 else 0) := by
  induction xs with
  | nil => cases hx
  | cons y t ih =>
    rw [List.map_cons, List.nodup_cons] at hnd
    rcases List.mem_cons.mp hx with rfl | hxt
    · -- the head is the looked-up record; no other row shares its key
      have ht : saveById getId t a = t :=
        saveById_eq_of_forall_ne (fun z hz hc =>
          hnd.1 (by rw [hid, ← hc]; exact List.mem_map_of_mem getId hz))
      simp only [saveById, List.map_cons, if_pos hid]
      rw [show List.map (fun z => if getId z = getId a then a else z) t = t from ht]
      by_cases hpx : p x = true <;> by_cases hpa : p a = true <;>
        simp [List.filter_cons, hpx, hpa] <;> omega
    · have hy : getId y ≠ getId a := by
        intro hc
        exact hnd.1 (by rw [hc, ← hid]; exact List.mem_map_of_mem getId hxt)
      have hih := ih hnd.2 hxt
      simp only [saveById, List.map_cons, if_neg hy]
      simp only [saveById] at hih
      by_cases hpy : p y = true <;> simp [List.filter_cons, hpy] <;> omega

theorem find?_saveById {getId : α → Nat} {xs : List α} {b : α} (a : α) (n : Nat)
    (hfind : xs.find? (fun x => getId x == n) = some b) (hab : getId a = getId b) :
    (saveById getId xs a).find? (fun x => getId x == n) = some a := by
  induction xs with
  | nil => simp at hfind
  | cons y t ih =>
    rw [List.find?_cons] at hfind
    by_cases hy : (getId y == n) = true
    · rw [hy] at hfind
      have hb : y = b := by simpa using hfind
      have hya : getId y = getId a := by rw [hab, hb]
      have han : (getId a == n) = true := by rw [← hya]; exact hy
      simp only [saveById, List.map_cons, if_pos hya]
      rw [List.find?_cons, han]
    · rw [Bool.not_eq_true] at hy
      rw [hy] at hfind
      have hfind' : t.find? (fun x => getId x == n) = some b := hfind
      have hbn0 := List.find?_some hfind'
      have hbn : (getId b == n) = true := hbn0
      have hya : getId y ≠ getId a := by
        intro hc
        rw [hab] at hc
        rw [hc, hbn] at hy
        exact absurd hy (by simp)
      simp only [saveById, List.map_cons, if_neg hya]
      rw [List.find?_cons, hy]
      exact ih hfind'

theorem borrowedCountBook_append (loans : List Loan) (nl : Loan) (bid : Nat) :
    borrowedCountBook (loans ++ [nl]) bid =
      borrowedCountBook loans bid +
        (if (nl.bookId == bid && nl.status == LoanStatus.borrowed) = true then 1 else 0) := by
  by_cases h : (nl.bookId == bid && nl.status == LoanStatus.borrowed) = true <;>
    simp [borrowedCountBook, List.filter_append, h]

theorem borrowedCountMember_append (loans : List Loan) (nl : Loan) (mid : Nat) :
    borrowedCountMember (loans ++ [nl]) mid =
      borrowedCountMember loans mid +
        (if (nl.borrowerId == mid && nl.status == LoanStatus.borrowed) = true then 1 else 0) := by
  by_cases h : (nl.borrowerId == mid && nl.status == LoanStatus.borrowed) = true <;>
    simp [borrowedCountMember, List.filter_append, h]

theorem borrowedCountBook_saveById {loans : List Loan} {x : Loan} (a : Loan) (bid : Nat)
    (hnd : (loans.map Loan.id).Nodup) (hx : x ∈ loans) (hid : x.id = a.id) :
    borrowedCountBook (saveById Loan.id loans a) bid +
      (if (x.bookId == bid && x.status == LoanStatus.borrowed) = true then 1 else 0)
    = borrowedCountBook loans bid +
      (if (a.bookId == bid && a.status == LoanStatus.borrowed) = true then 1 else 0) := by
  unfold borrowedCountBook
  exact length_filter_saveById (fun l => l.bookId == bid && l.status == LoanStatus.borrowed)
    Loan.id a hnd hx hid

theorem borrowedCountMember_saveById {loans : List Loan} {x : Loan} (a : Loan) (mid : Nat)
    (hnd : (loans.map Loan.id).Nodup) (hx : x ∈ loans) (hid : x.id = a.id) :
    borrowedCountMember (saveById Loan.id loans a) mid +
      (if (x.borrowerId == mid && x.status == LoanStatus.borrowed) = true then 1 else 0)
    = borrowedCountMember loans mid +
      (if (a.borrowerId == mid && a.status == LoanStatus.borrowed) = true then 1 else 0) := by
  unfold borrowedCountMember
  exact length_filter_saveById (fun l => l.borrowerId == mid && l.status == LoanStatus.borrowed)
    Loan.id a hnd hx hid

theorem WF_of_coreEq {s t : LibState} (hc : coreEq s t) (h : WF s) : WF t := by
  obtain ⟨hb, hm, hl, hn⟩ := hc
  unfold WF at h ⊢
  rw [hb, hm, hl, hn]
  exact h

theorem coreEq_borrow_book (s : LibState) (b m d : Nat) :
    coreEq s (borrow_book s b m d).1 := by
  unfold coreEq borrow_book
  refine ⟨?_, ?_, ?_, ?_⟩ <;> (repeat' split) <;> rfl

theorem coreEq_api_borrow (s : LibState) (b m d : Nat) :
    coreEq s (api_borrow s b m d).1 := by
  unfold coreEq api_borrow
  refine ⟨?_, ?_, ?_, ?_⟩ <;> (repeat' split) <;> rfl

theorem coreEq_deny_borrow (s : LibState) (rid : Nat) :
    coreEq s (deny_borrow_request s rid).1 := by
  unfold coreEq deny_borrow_request
  refine ⟨?_, ?_, ?_, ?_⟩ <;> (repeat' split) <;> rfl

theorem coreEq_return_book (s : LibState) (lid m : Nat) :
    coreEq s (return_book s lid m).1 := by
  unfold coreEq return_book
  refine ⟨?_, ?_, ?_, ?_⟩ <;> (repeat' split) <;> rfl

theorem coreEq_deny_return (s : LibState) (rid : Nat) :
    coreEq s (deny_return_request s rid).1 := by
  unfold coreEq deny_return_request
  refine ⟨?_, ?_, ?_, ?_⟩ <;> (repeat' split) <;> rfl

theorem coreEq_reserve_book (s : LibState) (today : Int) (b m : Nat) :
    coreEq s (reserve_book s today b m).1 := by
  unfold coreEq reserve_book
  refine ⟨?_, ?_, ?_, ?_⟩ <;> (repeat' split) <;> rfl

theorem coreEq_cleanup (s : LibState) (today : Int) :
    coreEq s (cleanup_expired_reservations s today).1 := by
  unfold coreEq cleanup_expired_reservations
  exact ⟨rfl, rfl, rfl, rfl⟩

theorem returnCore_reservations (s : LibState) (today : Int) (borrowing : Loan)
    (borrower : Member) (book : Book) :
    (returnCore s today borrowing borrower book).reservations = s.reservations := rfl

theorem returnCore_returnReqs (s : LibState) (today : Int) (borrowing : Loan)
    (borrower : Member) (book : Book) :
    (returnCore s today borrowing borrower book).returnReqs = s.returnReqs := rfl

/-- In both return paths the borrowing record is mutated to status returned
BEFORE `is_overdue` is consulted, and `is_overdue` requires status borrowed,
so the fine branch can never run: the loan keeps its old `fine_amount` and the
borrower's `total_fines` is not touched. -/
theorem returnCore_eq (s : LibState) (today : Int) (borrowing : Loan)
    (borrower : Member) (book : Book) :
    returnCore s today borrowing borrower book =
      { s with
          loans := saveById Loan.id s.loans
            { borrowing with return_date := some today, status := .returned },
          books := saveById Book.id s.books { book with is_available := true },
          members := saveById Member.id s.members (clampDecrement borrower) } := by
  unfold returnCore clampDecrement
  simp [Loan.is_overdue]

theorem approve_borrow_success (s : LibState) (today : Int) (rid : Nat)
    {req : BorrowRequest} {book : Book} {requester : Member}
    (hreq : s.borrowReqs.find?
      (fun r => r.id == rid && r.status == ReqStatus.pending) = some req)
    (hbook : findBook s req.bookId = some book)
    (hmem : findMember s req.requesterId = some requester)
    (hav : book.is_available = true) :
    approve_borrow_request s today rid =
      ({ s with
          loans := s.loans ++
            [{ id := s.nextLoanId, bookId := req.bookId,
               borrowerId := req.requesterId, borrow_date := today,
               due_date := today + (req.requested_duration_days : Int),
               return_date := none, status := .borrowed, fine_amount := 0 }],
          books := saveById Book.id s.books { book with is_available := false },
          members := saveById Member.id s.members
            { requester with current_books_count := requester.current_books_count + 1 },
          borrowReqs := saveById BorrowRequest.id s.borrowReqs
            { req with status := .approved },
          nextLoanId := s.nextLoanId + 1 }, .ok []) := by
  unfold approve_borrow_request
  simp [hreq, hbook, hmem, hav]

theorem approve_borrow_failure (s : LibState) (today : Int) (rid : Nat)
    {req : BorrowRequest} {book : Book}
    (hreq : s.borrowReqs.find?
      (fun r => r.id == rid && r.status == ReqStatus.pending) = some req)
    (hbook : findBook s req.bookId = some book)
    (hav : book.is_available = false) :
    approve_borrow_request s today rid = (s, .error .bookNoLongerAvailable) := by
  unfold approve_borrow_request
  simp [hreq, hbook, hav]

theorem process_return_guard (s : LibState) (today : Int) (lid : Nat)
    {borrowing : Loan} (hl : findLoan s lid = some borrowing)
    (hst : borrowing.status ≠ LoanStatus.borrowed) :
    process_return_directly s today lid = (s, .error .alreadyReturned) := by
  unfold process_return_directly
  simp [hl, hst]

theorem approve_return_guard (s : LibState) (today : Int) (rid : Nat)
    {rr : ReturnRequest} {borrowing : Loan}
    (hrr : s.returnReqs.find? (fun r => r.id == rid) = some rr)
    (hpend : rr.status = ReqStatus.pending)
    (hl : findLoan s rr.borrowingId = some borrowing)
    (hst : borrowing.status ≠ LoanStatus.borrowed) :
    approve_return_request s today rid = (s, .error .alreadyReturned) := by
  unfold approve_return_request
  simp [hrr, hpend, hl, hst]

theorem process_return_success (s : LibState) (today : Int) (lid : Nat)
    {borrowing : Loan} {borrower : Member} {book : Book}
    (hl : findLoan s lid = some borrowing)
    (hst : borrowing.status = LoanStatus.borrowed)
    (hm : findMember s borrowing.borrowerId = some borrower)
    (hb : findBook s borrowing.bookId = some book) :
    process_return_directly s today lid =
      (match first_active_reservation s.reservations book.id with
       | some r =>
          ({ returnCore s today borrowing borrower book with
              reservations := saveById Reservation.id s.reservations
                ({ r with status := .fulfilled }) },
           .ok [Event.returnConfirmation borrowing.id,
                Event.reservationAvailable r.id])
       | none =>
          (returnCore s today borrowing borrower book,
           .ok [Event.returnConfirmation borrowing.id])) := by
  unfold process_return_directly
  cases hres : first_active_reservation s.reservations book.id with
  | none => simp [hl, hst, hm, hb, hres]
  | some r => simp [hl, hst, hm, hb, hres, returnCore_reservations]

theorem approve_return_success (s : LibState) (today : Int) (rid : Nat)
    {rr : ReturnRequest} {borrowing : Loan} {borrower : Member} {book : Book}
    (hrr : s.returnReqs.find? (fun r => r.id == rid) = some rr)
    (hpend : rr.status = ReqStatus.pending)
    (hl : findLoan s rr.borrowingId = some borrowing)
    (hst : borrowing.status = LoanStatus.borrowed)
    (hm : findMember s borrowing.borrowerId = some borrower)
    (hb : findBook s borrowing.bookId = some book) :
    approve_return_request s today rid =
      ({ returnCore s today borrowing borrower book with
          returnReqs := saveById ReturnRequest.id s.returnReqs
            ({ rr with status := .approved }) },
       .ok (match first_active_reservation s.reservations book.id with
            | some r => [Event.returnConfirmation borrowing.id,
                         Event.reservationAvailable r.id]
            | none => [Event.returnConfirmation borrowing.id])) := by
  unfold approve_return_request
  cases hres : first_active_reservation s.reservations book.id with
  | none => simp [hrr, hpend, hl, hst, hm, hb, hres, returnCore_returnReqs]
  | some r => simp [hrr, hpend, hl, hst, hm, hb, hres, returnCore_returnReqs]

theorem findBook_eq {s : LibState} {bid : Nat} {b : Book}
    (h : findBook s bid = some b) : b ∈ s.books ∧ b.id = bid := by
  unfold findBook at h
  refine ⟨List.mem_of_find?_eq_some h, ?_⟩
  have hb0 := List.find?_some h
  have hb : (b.id == bid) = true := hb0
  simpa using hb

theorem findMember_eq {s : LibState} {mid : Nat} {m : Member}
    (h : findMember s mid = some m) : m ∈ s.members ∧ m.id = mid := by
  unfold findMember at h
  refine ⟨List.mem_of_find?_eq_some h, ?_⟩
  have hm0 := List.find?_some h
  have hm : (m.id == mid) = true := hm0
  simpa using hm

theorem findLoan_eq {s : LibState} {lid : Nat} {l : Loan}
    (h : findLoan s lid = some l) : l ∈ s.loans ∧ l.id = lid := by
  unfold findLoan at h
  refine ⟨List.mem_of_find?_eq_some h, ?_⟩
  have hl0 := List.find?_some h
  have hl : (l.id == lid) = true := hl0
  simpa using hl

theorem WF_afterBorrow (s : LibState) (nl : Loan) {book : Book} {requester : Member}
    (brs : List BorrowRequest)
    (hnlid : nl.id = s.nextLoanId) (hnlbook : nl.bookId = book.id)
    (hnlmem : nl.borrowerId = requester.id) (hnlst : nl.status = .borrowed)
    (hbmem : book ∈ s.books) (hav : book.is_available = true)
    (hmmem : requester ∈ s.members)
    (h : WF s) :
    WF { s with
          loans := s.loans ++ [nl],
          books := saveById Book.id s.books { book with is_available := false },
          members := saveById Member.id s.members
            { requester with current_books_count := requester.current_books_count + 1 },
          borrowReqs := brs,
          nextLoanId := s.nextLoanId + 1 } := by
  obtain ⟨hbN, hmN, hlN, hfresh, hbookInv, hmemInv⟩ := h
  have hcntB : ∀ bid, borrowedCountBook (s.loans ++ [nl]) bid
      = borrowedCountBook s.loans bid + (if (book.id == bid) = true then 1 else 0) := by
    intro bid
    rw [borrowedCountBook_append]
    rw [show (nl.bookId == bid && nl.status == LoanStatus.borrowed) = (book.id == bid) by
      rw [hnlbook, hnlst]; simp]
  have hcntM : ∀ m, borrowedCountMember (s.loans ++ [nl]) m
      = borrowedCountMember s.loans m + (if (requester.id == m) = true then 1 else 0) := by
    intro m
    rw [borrowedCountMember_append]
    rw [show (nl.borrowerId == m && nl.status == LoanStatus.borrowed) = (requester.id == m) by
      rw [hnlmem, hnlst]; simp]
  unfold WF
  refine ⟨?_, ?_, ?_, ?_, ?_, ?_⟩
  · show ((saveById Book.id s.books { book with is_available := false }).map Book.id).Nodup
    rw [saveById_map_id]
    exact hbN
  · show ((saveById Member.id s.members
      { requester with current_books_count := requester.current_books_count + 1 }).map
        Member.id).Nodup
    rw [saveById_map_id]
    exact hmN
  · show ((s.loans ++ [nl]).map Loan.id).Nodup
    rw [List.map_append, List.nodup_append]
    refine ⟨hlN, by simp, ?_⟩
    intro a ha
    obtain ⟨l, hlm, rfl⟩ := List.mem_map.mp ha
    have := hfresh l hlm
    simp only [List.map_cons, List.map_nil, List.mem_singleton]
    rw [hnlid]
    omega
  · show ∀ l ∈ s.loans ++ [nl], l.id < s.nextLoanId + 1
    intro l hl
    rcases List.mem_append.mp hl with hl | hl
    · exact Nat.lt_succ_of_lt (hfresh l hl)
    · rw [List.mem_singleton] at hl
      subst hl
      rw [hnlid]
      exact Nat.lt_succ_self _
  · show ∀ b ∈ saveById Book.id s.books { book with is_available := false },
      borrowedCountBook (s.loans ++ [nl]) b.id ≤ 1 ∧
        b.is_available = (borrowedCountBook (s.loans ++ [nl]) b.id == 0)
    intro b hb
    rcases mem_saveById hb with rfl | ⟨hbm2, hbne⟩
    · have hcz : borrowedCountBook s.loans book.id = 0 := by
        have h2 := (hbookInv book hbmem).2
        rw [hav] at h2
        have h3 : (borrowedCountBook s.loans book.id == 0) = true := h2.symm
        simpa using h3
      have hgid : ({ book with is_available := false } : Book).id = book.id := rfl
      rw [hgid, hcntB, hcz]
      simp
    · have hne2 : (book.id == b.id) = false := by
        have hne3 : book.id ≠ b.id := fun hc => hbne (by rw [hc])
        simpa using hne3
      rw [hcntB, hne2]
      simpa using hbookInv b hbm2
  · show ∀ m ∈ saveById Member.id s.members
      { requester with current_books_count := requester.current_books_count + 1 },
      m.current_books_count = borrowedCountMember (s.loans ++ [nl]) m.id
    intro m hm
    rcases mem_saveById hm with rfl | ⟨hmm2, hmne⟩
    · have hgid : ({ requester with
          current_books_count := requester.current_books_count + 1 } : Member).id
          = requester.id := rfl
      rw [hgid, hcntM, ← hmemInv requester hmmem]
      simp
    · have hne2 : (requester.id == m.id) = false := by
        have hne3 : requester.id ≠ m.id := fun hc => hmne (by rw [hc])
        simpa using hne3
      rw [hcntM, hne2]
      simpa using hmemInv m hmm2

theorem WF_approve_borrow (s : LibState) (today : Int) (rid : Nat) (h : WF s) :
    WF (approve_borrow_request s today rid).1 := by
  rcases hreq : s.borrowReqs.find?
      (fun r => r.id == rid && r.status == ReqStatus.pending) with _ | req
  · have hs : (approve_borrow_request s today rid).1 = s := by
      unfold approve_borrow_request
      simp [hreq]
    rw [hs]
    exact h
  rcases hbook : findBook s req.bookId with _ | book
  · have hs : (approve_borrow_request s today rid).1 = s := by
      unfold approve_borrow_request
      simp [hreq, hbook]
    rw [hs]
    exact h
  by_cases hav : book.is_available = false
  · have hs : (approve_borrow_request s today rid).1 = s := by
      rw [approve_borrow_failure s today rid hreq hbook hav]
    rw [hs]
    exact h
  have hav2 : book.is_available = true := by
    cases hx : book.is_available
    · exact absurd hx hav
    · rfl
  rcases hmem : findMember s req.requesterId with _ | requester
  · have hs : (approve_borrow_request s today rid).1 = s := by
      unfold approve_borrow_request
      simp [hreq, hbook, hav2, hmem]
    rw [hs]
    exact h
  have hstate := congrArg Prod.fst (approve_borrow_success s today rid hreq hbook hmem hav2)
  rw [hstate]
  have hbook2 := findBook_eq hbook
  have hmem2 := findMember_eq hmem
  exact WF_afterBorrow s
    { id := s.nextLoanId, bookId := req.bookId, borrowerId := req.requesterId,
      borrow_date := today, due_date := today + (req.requested_duration_days : Int),
      return_date := none, status := .borrowed, fine_amount := 0 }
    (saveById BorrowRequest.id s.borrowReqs { req with status := .approved })
    rfl hbook2.2.symm hmem2.2.symm rfl hbook2.1 hav2 hmem2.1 h

theorem process_return_success_res (s : LibState) (today : Int) (lid : Nat)
    {borrowing : Loan} {borrower : Member} {book : Book} {r : Reservation}
    (hl : findLoan s lid = some borrowing)
    (hst : borrowing.status = LoanStatus.borrowed)
    (hm : findMember s borrowing.borrowerId = some borrower)
    (hb : findBook s borrowing.bookId = some book)
    (hres : first_active_reservation s.reservations book.id = some r) :
    process_return_directly s today lid =
      ({ returnCore s today borrowing borrower book with
          reservations := saveById Reservation.id s.reservations
            ({ r with status := .fulfilled }) },
       .ok [Event.returnConfirmation borrowing.id,
            Event.reservationAvailable r.id]) := by
  rw [process_return_success s today lid hl hst hm hb, hres]

theorem process_return_success_nores (s : LibState) (today : Int) (lid : Nat)
    {borrowing : Loan} {borrower : Member} {book : Book}
    (hl : findLoan s lid = some borrowing)
    (hst : borrowing.status = LoanStatus.borrowed)
    (hm : findMember s borrowing.borrowerId = some borrower)
    (hb : findBook s borrowing.bookId = some book)
    (hres : first_active_reservation s.reservations book.id = none) :
    process_return_directly s today lid =
      (returnCore s today borrowing borrower book,
       .ok [Event.returnConfirmation borrowing.id]) := by
  rw [process_return_success s today lid hl hst hm hb, hres]

theorem approve_return_success_res (s : LibState) (today : Int) (rid : Nat)
    {rr : ReturnRequest} {borrowing : Loan} {borrower : Member} {book : Book}
    {r : Reservation}
    (hrr : s.returnReqs.find? (fun x => x.id == rid) = some rr)
    (hpend : rr.status = ReqStatus.pending)
    (hl : findLoan s rr.borrowingId = some borrowing)
    (hst : borrowing.status = LoanStatus.borrowed)
    (hm : findMember s borrowing.borrowerId = some borrower)
    (hb : findBook s borrowing.bookId = some book)
    (hres : first_active_reservation s.reservations book.id = some r) :
    approve_return_request s today rid =
      ({ returnCore s today borrowing borrower book with
          returnReqs := saveById ReturnRequest.id s.returnReqs
            ({ rr with status := .approved }) },
       .ok [Event.returnConfirmation borrowing.id,
            Event.reservationAvailable r.id]) := by
  rw [approve_return_success s today rid hrr hpend hl hst hm hb, hres]

theorem approve_return_success_nores (s : LibState) (today : Int) (rid : Nat)
    {rr : ReturnRequest} {borrowing : Loan} {borrower : Member} {book : Book}
    (hrr : s.returnReqs.find? (fun x => x.id == rid) = some rr)
    (hpend : rr.status = ReqStatus.pending)
    (hl : findLoan s rr.borrowingId = some borrowing)
    (hst : borrowing.status = LoanStatus.borrowed)
    (hm : findMember s borrowing.borrowerId = some borrower)
    (hb : findBook s borrowing.bookId = some book)
    (hres : first_active_reservation s.reservations book.id = none) :
    approve_return_request s today rid =
      ({ returnCore s today borrowing borrower book with
          returnReqs := saveById ReturnRequest.id s.returnReqs
            ({ rr with status := .approved }) },
       .ok [Event.returnConfirmation borrowing.id]) := by
  rw [approve_return_success s today rid hrr hpend hl hst hm hb, hres]

theorem WF_returnCore (s : LibState) (today : Int)
    {borrowing : Loan} {borrower : Member} {book : Book}
    (hlmem : borrowing ∈ s.loans) (hst : borrowing.status = LoanStatus.borrowed)
    (hmmem : borrower ∈ s.members) (hmid : borrower.id = borrowing.borrowerId)
    (hbmem : book ∈ s.books) (hbid : book.id = borrowing.bookId)
    (h : WF s) : WF (returnCore s today borrowing borrower book) := by
  obtain ⟨hbN, hmN, hlN, hfresh, hbookInv, hmemInv⟩ := h
  rw [returnCore_eq]
  have hcntB : ∀ bid,
      borrowedCountBook (saveById Loan.id s.loans
        { borrowing with return_date := some today, status := .returned }) bid
      + (if (borrowing.bookId == bid) = true then 1 else 0)
      = borrowedCountBook s.loans bid := by
    intro bid
    have hkey := borrowedCountBook_saveById
      ({ borrowing with return_date := some today, status := .returned }) bid hlN hlmem rfl
    simpa [hst] using hkey
  have hcntM : ∀ mid,
      borrowedCountMember (saveById Loan.id s.loans
        { borrowing with return_date := some today, status := .returned }) mid
      + (if (borrowing.borrowerId == mid) = true then 1 else 0)
      = borrowedCountMember s.loans mid := by
    intro mid
    have hkey := borrowedCountMember_saveById
      ({ borrowing with return_date := some today, status := .returned }) mid hlN hlmem rfl
    simpa [hst] using hkey
  unfold WF
  refine ⟨?_, ?_, ?_, ?_, ?_, ?_⟩
  · show ((saveById Book.id s.books { book with is_available := true }).map Book.id).Nodup
    rw [saveById_map_id]
    exact hbN
  · show ((saveById Member.id s.members (clampDecrement borrower)).map Member.id).Nodup
    rw [saveById_map_id]
    exact hmN
  · show ((saveById Loan.id s.loans
      { borrowing with return_date := some today, status := .returned }).map Loan.id).Nodup
    rw [saveById_map_id]
    exact hlN
  · show ∀ l ∈ saveById Loan.id s.loans
      { borrowing with return_date := some today, status := .returned },
      l.id < s.nextLoanId
    intro l hl
    rcases mem_saveById hl with rfl | ⟨hl2, _⟩
    · exact hfresh borrowing hlmem
    · exact hfresh l hl2
  · show ∀ b ∈ saveById Book.id s.books { book with is_available := true },
      borrowedCountBook (saveById Loan.id s.loans
        { borrowing with return_date := some today, status := .returned }) b.id ≤ 1 ∧
      b.is_available = (borrowedCountBook (saveById Loan.id s.loans
        { borrowing with return_date := some today, status := .returned }) b.id == 0)
    intro b hb
    rcases mem_saveById hb with rfl | ⟨hbm2, hbne⟩
    · have hgid : ({ book with is_available := true } : Book).id = book.id := rfl
      have hone : (if (borrowing.bookId == book.id) = true then 1 else 0) = 1 := by
        simp [hbid]
      have hk := hcntB book.id
      rw [hone] at hk
      have hcz : borrowedCountBook (saveById Loan.id s.loans
          { borrowing with return_date := some today, status := .returned }) book.id = 0 := by
        have hle := (hbookInv book hbmem).1
        omega
      rw [hgid, hcz]
      simp
    · have hne2 : (borrowing.bookId == b.id) = false := by
        have hne3 : borrowing.bookId ≠ b.id := by
          intro hc
          exact hbne (by show b.id = book.id; rw [hbid, hc])
        simpa using hne3
      have hk := hcntB b.id
      rw [hne2] at hk
      simp at hk
      rw [hk]
      exact hbookInv b hbm2
  · show ∀ m ∈ saveById Member.id s.members (clampDecrement borrower),
      m.current_books_count = borrowedCountMember (saveById Loan.id s.loans
        { borrowing with return_date := some today, status := .returned }) m.id
    intro m hm
    rcases mem_saveById hm with rfl | ⟨hmm2, hmne⟩
    · have hgid : (clampDecrement borrower).id = borrower.id := by
        unfold clampDecrement
        split <;> rfl
      have hone : (if (borrowing.borrowerId == borrower.id) = true then 1 else 0) = 1 := by
        simp [hmid]
      have hk := hcntM borrower.id
      rw [hone] at hk
      have hoc : borrowedCountMember s.loans borrower.id = borrower.current_books_count :=
        (hmemInv borrower hmmem).symm
      have hpos : 0 < borrower.current_books_count := by
        have hmemf : borrowing ∈ s.loans.filter
            (fun l => l.borrowerId == borrower.id && l.status == LoanStatus.borrowed) := by
          refine List.mem_filter.mpr ⟨hlmem, ?_⟩
          simp [hmid, hst]
        have hlen : 0 < borrowedCountMember s.loans borrower.id :=
          List.length_pos_of_mem hmemf
        omega
      rw [hgid]
      unfold clampDecrement
      rw [if_pos hpos]
      show borrower.current_books_count - 1 = _
      omega
    · have hgid : (clampDecrement borrower).id = borrower.id := by
        unfold clampDecrement
        split <;> rfl
      have hne2 : (borrowing.borrowerId == m.id) = false := by
        have hne3 : borrowing.borrowerId ≠ m.id := by
          intro hc
          refine hmne ?_
          rw [hgid, hmid, hc]
        simpa using hne3
      have hk := hcntM m.id
      rw [hne2] at hk
      simp at hk
      rw [hk]
      exact hmemInv m hmm2

theorem WF_process_return (s : LibState) (today : Int) (lid : Nat) (h : WF s) :
    WF (process_return_directly s today lid).1 := by
  rcases hl : findLoan s lid with _ | borrowing
  · have hs : (process_return_directly s today lid).1 = s := by
      unfold process_return_directly
      simp [hl]
    rw [hs]
    exact h
  by_cases hst : borrowing.status = LoanStatus.borrowed
  case neg =>
    have hs : (process_return_directly s today lid).1 = s := by
      rw [process_return_guard s today lid hl hst]
    rw [hs]
    exact h
  case pos =>
  rcases hm : findMember s borrowing.borrowerId with _ | borrower
  · have hs : (process_return_directly s today lid).1 = s := by
      unfold process_return_directly
      simp [hl, hst, hm]
    rw [hs]
    exact h
  rcases hb : findBook s borrowing.bookId with _ | book
  · have hs : (process_return_directly s today lid).1 = s := by
      unfold process_return_directly
      simp [hl, hst, hm, hb]
    rw [hs]
    exact h
  have hwf := WF_returnCore s today (findLoan_eq hl).1 hst (findMember_eq hm).1
    (findMember_eq hm).2 (findBook_eq hb).1 (findBook_eq hb).2 h
  cases hres : first_active_reservation s.reservations book.id with
  | some r =>
    have hstate := congrArg Prod.fst (process_return_success_res s today lid hl hst hm hb hres)
    rw [hstate]
    exact WF_of_coreEq ⟨rfl, rfl, rfl, rfl⟩ hwf
  | none =>
    have hstate := congrArg Prod.fst (process_return_success_nores s today lid hl hst hm hb hres)
    rw [hstate]
    exact hwf

theorem WF_approve_return (s : LibState) (today : Int) (rid : Nat) (h : WF s) :
    WF (approve_return_request s today rid).1 := by
  rcases hrr : s.returnReqs.find? (fun x => x.id == rid) with _ | rr
  · have hs : (approve_return_request s today rid).1 = s := by
      unfold approve_return_request
      simp [hrr]
    rw [hs]
    exact h
  by_cases hpend : rr.status = ReqStatus.pending
  case neg =>
    have hs : (approve_return_request s today rid).1 = s := by
      unfold approve_return_request
      simp [hrr, hpend]
    rw [hs]
    exact h
  case pos =>
  rcases hl : findLoan s rr.borrowingId with _ | borrowing
  · have hs : (approve_return_request s today rid).1 = s := by
      unfold approve_return_request
      simp [hrr, hpend, hl]
    rw [hs]
    exact h
  by_cases hst : borrowing.status = LoanStatus.borrowed
  case neg =>
    have hs : (approve_return_request s today rid).1 = s := by
      rw [approve_return_guard s today rid hrr hpend hl hst]
    rw [hs]
    exact h
  case pos =>
  rcases hm : findMember s borrowing.borrowerId with _ | borrower
  · have hs : (approve_return_request s today rid).1 = s := by
      unfold approve_return_request
      simp [hrr, hpend, hl, hst, hm]
    rw [hs]
    exact h
  rcases hb : findBook s borrowing.bookId with _ | book
  · have hs : (approve_return_request s today rid).1 = s := by
      unfold approve_return_request
      simp [hrr, hpend, hl, hst, hm, hb]
    rw [hs]
    exact h
  have hwf := WF_returnCore s today (findLoan_eq hl).1 hst (findMember_eq hm).1
    (findMember_eq hm).2 (findBook_eq hb).1 (findBook_eq hb).2 h
  cases hres : first_active_reservation s.reservations book.id with
  | some r =>
    have hstate := congrArg Prod.fst
      (approve_return_success_res s today rid hrr hpend hl hst hm hb hres)
    rw [hstate]
    exact WF_of_coreEq ⟨rfl, rfl, rfl, rfl⟩ hwf
  | none =>
    have hstate := congrArg Prod.fst
      (approve_return_success_nores s today rid hrr hpend hl hst hm hb hres)
    rw [hstate]
    exact WF_of_coreEq ⟨rfl, rfl, rfl, rfl⟩ hwf

theorem WF_step (s : LibState) (op : Op) (h : WF s) : WF (step s op) := by
  cases op with
  | submitBorrow b m d => exact WF_of_coreEq (coreEq_borrow_book s b m d) h
  | apiSubmitBorrow b m d => exact WF_of_coreEq (coreEq_api_borrow s b m d) h
  | approveBorrow today rid => exact WF_approve_borrow s today rid h
  | denyBorrow rid => exact WF_of_coreEq (coreEq_deny_borrow s rid) h
  | submitReturn lid m => exact WF_of_coreEq (coreEq_return_book s lid m) h
  | approveReturn today rid => exact WF_approve_return s today rid h
  | denyReturn rid => exact WF_of_coreEq (coreEq_deny_return s rid) h
  | directReturn today lid => exact WF_process_return s today lid h
  | reserve today b m => exact WF_of_coreEq (coreEq_reserve_book s today b m) h
  | expireReservations today => exact WF_of_coreEq (coreEq_cleanup s today) h

theorem WF_run (s : LibState) (ops : List Op) (h : WF s) : WF (run s ops) := by
  induction ops generalizing s with
  | nil => exact h
  | cons op t ih => exact ih (step s op) (WF_step s op h)

theorem borrowedCountBook_pos_iff (loans : List Loan) (bid : Nat) :
    borrowedCountBook loans bid ≠ 0 ↔
      ∃ l ∈ loans, l.bookId = bid ∧ l.status = LoanStatus.borrowed := by
  unfold borrowedCountBook
  constructor
  · intro h
    obtain ⟨l, hl⟩ := List.length_pos_iff_exists_mem.mp (Nat.pos_of_ne_zero h)
    have hm := List.mem_filter.mp hl
    refine ⟨l, hm.1, ?_⟩
    have hp := hm.2
    simp at hp
    exact hp
  · rintro ⟨l, hl, hbid, hstat⟩
    have hm : l ∈ loans.filter
        (fun l => l.bookId == bid && l.status == LoanStatus.borrowed) :=
      List.mem_filter.mpr ⟨hl, by simp [hbid, hstat]⟩
    have := List.length_pos_of_mem hm
    omega

theorem resMin_fold (l : List Reservation) :
    ∀ (acc : Option Reservation) (m : Reservation),
      l.foldl (fun acc r =>
        match acc with
        | none => some r
        | some a => if r.reservation_date < a.reservation_date then some r else acc) acc
        = some m →
      (acc = some m ∨ m ∈ l) ∧
      (∀ a, acc = some a → m.reservation_date ≤ a.reservation_date) ∧
      (∀ x ∈ l, m.reservation_date ≤ x.reservation_date) := by
  induction l with
  | nil =>
    intro acc m h
    simp only [List.foldl_nil] at h
    exact ⟨Or.inl h, fun a ha => by rw [h] at ha; injection ha with ha; rw [ha], by simp⟩
  | cons y t ih =>
    intro acc m h
    simp only [List.foldl_cons] at h
    cases acc with
    | none =>
      obtain ⟨h1, h2, h3⟩ := ih (some y) m h
      refine ⟨?_, ?_, ?_⟩
      · right
        rcases h1 with h1 | h1
        · injection h1 with h1
          rw [← h1]
          exact List.mem_cons_self y t
        · exact List.mem_cons_of_mem y h1
      · intro a ha
        cases ha
      · intro x hx
        rcases List.mem_cons.mp hx with rfl | hx
        · exact h2 x rfl
        · exact h3 x hx
    | some a0 =>
      rw [show (match some a0 with
        | none => some y
        | some a => if y.reservation_date < a.reservation_date then some y else some a0)
        = (if y.reservation_date < a0.reservation_date then some y else some a0) from rfl] at h
      by_cases hlt : y.reservation_date < a0.reservation_date
      · rw [if_pos hlt] at h
        obtain ⟨h1, h2, h3⟩ := ih (some y) m h
        refine ⟨?_, ?_, ?_⟩
        · right
          rcases h1 with h1 | h1
          · injection h1 with h1
            rw [← h1]
            exact List.mem_cons_self y t
          · exact List.mem_cons_of_mem y h1
        · intro a ha
          injection ha with ha
          subst ha
          have := h2 y rfl
          omega
        · intro x hx
          rcases List.mem_cons.mp hx with rfl | hx
          · exact h2 x rfl
          · exact h3 x hx
      · rw [if_neg hlt] at h
        obtain ⟨h1, h2, h3⟩ := ih (some a0) m h
        refine ⟨?_, ?_, ?_⟩
        · rcases h1 with h1 | h1
          · exact Or.inl h1
          · exact Or.inr (List.mem_cons_of_mem y h1)
        · intro a ha
          injection ha with ha
          subst ha
          exact h2 a0 rfl
        · intro x hx
          rcases List.mem_cons.mp hx with rfl | hx
          · have := h2 a0 rfl
            omega
          · exact h3 x hx

theorem resMin_fold_isSome (l : List Reservation) :
    ∀ a : Reservation,
      ∃ m, l.foldl (fun acc r =>
        match acc with
        | none => some r
        | some a => if r.reservation_date < a.reservation_date then some r else acc)
        (some a) = some m := by
  induction l with
  | nil => intro a; exact ⟨a, rfl⟩
  | cons y t ih =>
    intro a
    simp only [List.foldl_cons]
    by_cases hlt : y.reservation_date < a.reservation_date
    · rw [if_pos hlt]
      exact ih y
    · rw [if_neg hlt]
      exact ih a

/-- The queryset lookup picks an active reservation of the book whose
timestamp is minimal among all active reservations of the book. -/
theorem first_active_reservation_spec (resvs : List Reservation) (bid : Nat)
    {r : Reservation} (h : first_active_reservation resvs bid = some r) :
    r ∈ resvs ∧ r.bookId = bid ∧ r.status = ResStatus.active ∧
    ∀ x ∈ resvs, x.bookId = bid → x.status = ResStatus.active →
      r.reservation_date ≤ x.reservation_date := by
  unfold first_active_reservation at h
  obtain ⟨h1, _, h3⟩ := resMin_fold _ none r h
  rcases h1 with h1 | h1
  · cases h1
  · have hm := List.mem_filter.mp h1
    have hp := hm.2
    simp at hp
    refine ⟨hm.1, hp.1, hp.2, ?_⟩
    intro x hx hxb hxs
    exact h3 x (List.mem_filter.mpr ⟨hx, by simp [hxb, hxs]⟩)

theorem first_active_reservation_isSome (resvs : List Reservation) (bid : Nat)
    {x : Reservation} (hx : x ∈ resvs) (hxb : x.bookId = bid)
    (hxs : x.status = ResStatus.active) :
    ∃ r, first_active_reservation resvs bid = some r := by
  unfold first_active_reservation
  have hm : x ∈ resvs.filter
      (fun r => r.bookId == bid && r.status == ResStatus.active) :=
    List.mem_filter.mpr ⟨hx, by simp [hxb, hxs]⟩
  cases hfe : resvs.filter (fun r => r.bookId == bid && r.status == ResStatus.active) with
  | nil => rw [hfe] at hm; cases hm
  | cons y t =>
    simp only [List.foldl_cons]
    exact resMin_fold_isSome t y

theorem finesLE_refl (xs : List Member) : finesLE xs xs := by
  induction xs with
  | nil => exact List.Forall₂.nil
  | cons y t ih => exact List.Forall₂.cons ⟨rfl, le_refl _⟩ ih

theorem finesLE_trans {xs ys zs : List Member}
    (h1 : finesLE xs ys) (h2 : finesLE ys zs) : finesLE xs zs := by
  induction h1 generalizing zs with
  | nil =>
    cases h2
    exact List.Forall₂.nil
  | cons hab ht ih =>
    cases h2 with
    | cons hbz ht2 =>
      exact List.Forall₂.cons ⟨hab.1.trans hbz.1, le_trans hab.2 hbz.2⟩ (ih ht2)

theorem finesLE_saveById (xs : List Member) (a : Member)
    (h : ∀ x ∈ xs, x.id = a.id → x.total_fines ≤ a.total_fines) :
    finesLE xs (saveById Member.id xs a) := by
  induction xs with
  | nil => exact List.Forall₂.nil
  | cons y t ih =>
    have htail := ih (fun x hx => h x (List.mem_cons_of_mem y hx))
    show List.Forall₂ _ (y :: t) ((if Member.id y = Member.id a then a else y) :: _)
    by_cases hy : Member.id y = Member.id a
    · rw [if_pos hy]
      exact List.Forall₂.cons ⟨hy, h y (List.mem_cons_self y t) hy⟩ htail
    · rw [if_neg hy]
      exact List.Forall₂.cons ⟨rfl, le_refl _⟩ htail

theorem clampDecrement_id (m : Member) : (clampDecrement m).id = m.id := by
  unfold clampDecrement
  split <;> rfl

theorem clampDecrement_fines (m : Member) :
    (clampDecrement m).total_fines = m.total_fines := by
  unfold clampDecrement
  split <;> rfl

theorem eq_of_id_eq {xs : List Member} (hnd : (xs.map Member.id).Nodup)
    {x y : Member} (hx : x ∈ xs) (hy : y ∈ xs) (hxy : x.id = y.id) : x = y :=
  List.inj_on_of_nodup_map hnd hx hy hxy

theorem returnCore_members_facts (s : LibState) (today : Int)
    (borrowing : Loan) {borrower : Member} (book : Book)
    (hmmem : borrower ∈ s.members)
    (hnd : (s.members.map Member.id).Nodup) :
    (returnCore s today borrowing borrower book).members.map Member.id
      = s.members.map Member.id ∧
    finesLE s.members (returnCore s today borrowing borrower book).members := by
  rw [returnCore_eq]
  refine ⟨saveById_map_id Member.id s.members (clampDecrement borrower), ?_⟩
  refine finesLE_saveById s.members (clampDecrement borrower) ?_
  intro x hx hid
  have hxb : x = borrower := by
    refine eq_of_id_eq hnd hx hmmem ?_
    rw [hid, clampDecrement_id]
  rw [hxb, clampDecrement_fines]

theorem step_members (s : LibState) (op : Op)
    (hnd : (s.members.map Member.id).Nodup) :
    (step s op).members.map Member.id = s.members.map Member.id ∧
    finesLE s.members (step s op).members := by
  cases op with
  | submitBorrow b m d =>
    have hc := (coreEq_borrow_book s b m d).2.1
    exact ⟨by rw [show (step s (.submitBorrow b m d)).members
        = (borrow_book s b m d).1.members from rfl, hc],
      by rw [show (step s (.submitBorrow b m d)).members
        = (borrow_book s b m d).1.members from rfl, hc]; exact finesLE_refl _⟩
  | apiSubmitBorrow b m d =>
    have hc := (coreEq_api_borrow s b m d).2.1
    exact ⟨by rw [show (step s (.apiSubmitBorrow b m d)).members
        = (api_borrow s b m d).1.members from rfl, hc],
      by rw [show (step s (.apiSubmitBorrow b m d)).members
        = (api_borrow s b m d).1.members from rfl, hc]; exact finesLE_refl _⟩
  | denyBorrow rid =>
    have hc := (coreEq_deny_borrow s rid).2.1
    exact ⟨by rw [show (step s (.denyBorrow rid)).members
        = (deny_borrow_request s rid).1.members from rfl, hc],
      by rw [show (step s (.denyBorrow rid)).members
        = (deny_borrow_request s rid).1.members from rfl, hc]; exact finesLE_refl _⟩
  | submitReturn lid m =>
    have hc := (coreEq_return_book s lid m).2.1
    exact ⟨by rw [show (step s (.submitReturn lid m)).members
        = (return_book s lid m).1.members from rfl, hc],
      by rw [show (step s (.submitReturn lid m)).members
        = (return_book s lid m).1.members from rfl, hc]; exact finesLE_refl _⟩
  | denyReturn rid =>
    have hc := (coreEq_deny_return s rid).2.1
    exact ⟨by rw [show (step s (.denyReturn rid)).members
        = (deny_return_request s rid).1.members from rfl, hc],
      by rw [show (step s (.denyReturn rid)).members
        = (deny_return_request s rid).1.members from rfl, hc]; exact finesLE_refl _⟩
  | reserve today b m =>
    have hc := (coreEq_reserve_book s today b m).2.1
    exact ⟨by rw [show (step s (.reserve today b m)).members
        = (reserve_book s today b m).1.members from rfl, hc],
      by rw [show (step s (.reserve today b m)).members
        = (reserve_book s today b m).1.members from rfl, hc]; exact finesLE_refl _⟩
  | expireReservations today =>
    have hc := (coreEq_cleanup s today).2.1
    exact ⟨by rw [show (step s (.expireReservations today)).members
        = (cleanup_expired_reservations s today).1.members from rfl, hc],
      by rw [show (step s (.expireReservations today)).members
        = (cleanup_expired_reservations s today).1.members from rfl, hc]; exact finesLE_refl _⟩
  | approveBorrow today rid =>
    show (approve_borrow_request s today rid).1.members.map Member.id
        = s.members.map Member.id ∧
      finesLE s.members (approve_borrow_request s today rid).1.members
    rcases hreq : s.borrowReqs.find?
        (fun r => r.id == rid && r.status == ReqStatus.pending) with _ | req
    · have hs : (approve_borrow_request s today rid).1 = s := by
        unfold approve_borrow_request
        simp [hreq]
      rw [hs]
      exact ⟨rfl, finesLE_refl _⟩
    rcases hbook : findBook s req.bookId with _ | book
    · have hs : (approve_borrow_request s today rid).1 = s := by
        unfold approve_borrow_request
        simp [hreq, hbook]
      rw [hs]
      exact ⟨rfl, finesLE_refl _⟩
    by_cases hav : book.is_available = false
    · have hs : (approve_borrow_request s today rid).1 = s := by
        rw [approve_borrow_failure s today rid hreq hbook hav]
      rw [hs]
      exact ⟨rfl, finesLE_refl _⟩
    have hav2 : book.is_available = true := by
      cases hx : book.is_available
      · exact absurd hx hav
      · rfl
    rcases hmem : findMember s req.requesterId with _ | requester
    · have hs : (approve_borrow_request s today rid).1 = s := by
        unfold approve_borrow_request
        simp [hreq, hbook, hav2, hmem]
      rw [hs]
      exact ⟨rfl, finesLE_refl _⟩
    have hstate := congrArg Prod.fst (approve_borrow_success s today rid hreq hbook hmem hav2)
    rw [hstate]
    refine ⟨saveById_map_id Member.id s.members _, ?_⟩
    refine finesLE_saveById s.members _ ?_
    intro x hx hid
    have hxb : x = requester := eq_of_id_eq hnd hx (findMember_eq hmem).1 hid
    rw [hxb]
  | approveReturn today rid =>
    show (approve_return_request s today rid).1.members.map Member.id
        = s.members.map Member.id ∧
      finesLE s.members (approve_return_request s today rid).1.members
    rcases hrr : s.returnReqs.find? (fun x => x.id == rid) with _ | rr
    · have hs : (approve_return_request s today rid).1 = s := by
        unfold approve_return_request
        simp [hrr]
      rw [hs]
      exact ⟨rfl, finesLE_refl _⟩
    by_cases hpend : rr.status = ReqStatus.pending
    case neg =>
      have hs : (approve_return_request s today rid).1 = s := by
        unfold approve_return_request
        simp [hrr, hpend]
      rw [hs]
      exact ⟨rfl, finesLE_refl _⟩
    case pos =>
    rcases hl : findLoan s rr.borrowingId with _ | borrowing
    · have hs : (approve_return_request s today rid).1 = s := by
        unfold approve_return_request
        simp [hrr, hpend, hl]
      rw [hs]
      exact ⟨rfl, finesLE_refl _⟩
    by_cases hst : borrowing.status = LoanStatus.borrowed
    case neg =>
      have hs : (approve_return_request s today rid).1 = s := by
        rw [approve_return_guard s today rid hrr hpend hl hst]
      rw [hs]
      exact ⟨rfl, finesLE_refl _⟩
    case pos =>
    rcases hm : findMember s borrowing.borrowerId with _ | borrower
    · have hs : (approve_return_request s today rid).1 = s := by
        unfold approve_return_request
        simp [hrr, hpend, hl, hst, hm]
      rw [hs]
      exact ⟨rfl, finesLE_refl _⟩
    rcases hb : findBook s borrowing.bookId with _ | book
    · have hs : (approve_return_request s today rid).1 = s := by
        unfold approve_return_request
        simp [hrr, hpend, hl, hst, hm, hb]
      rw [hs]
      exact ⟨rfl, finesLE_refl _⟩
    have hfacts := returnCore_members_facts s today borrowing book (findMember_eq hm).1 hnd
    cases hres : first_active_reservation s.reservations book.id with
    | some r =>
      have hstate := congrArg Prod.fst
        (approve_return_success_res s today rid hrr hpend hl hst hm hb hres)
      rw [hstate]
      exact hfacts
    | none =>
      have hstate := congrArg Prod.fst
        (approve_return_success_nores s today rid hrr hpend hl hst hm hb hres)
      rw [hstate]
      exact hfacts
  | directReturn today lid =>
    show (process_return_directly s today lid).1.members.map Member.id
        = s.members.map Member.id ∧
      finesLE s.members (process_return_directly s today lid).1.members
    rcases hl : findLoan s lid with _ | borrowing
    · have hs : (process_return_directly s today lid).1 = s := by
        unfold process_return_directly
        simp [hl]
      rw [hs]
      exact ⟨rfl, finesLE_refl _⟩
    by_cases hst : borrowing.status = LoanStatus.borrowed
    case neg =>
      have hs : (process_return_directly s today lid).1 = s := by
        rw [process_return_guard s today lid hl hst]
      rw [hs]
      exact ⟨rfl, finesLE_refl _⟩
    case pos =>
    rcases hm : findMember s borrowing.borrowerId with _ | borrower
    · have hs : (process_return_directly s today lid).1 = s := by
        unfold process_return_directly
        simp [hl, hst, hm]
      rw [hs]
      exact ⟨rfl, finesLE_refl _⟩
    rcases hb : findBook s borrowing.bookId with _ | book
    · have hs : (process_return_directly s today lid).1 = s := by
        unfold process_return_directly
        simp [hl, hst, hm, hb]
      rw [hs]
      exact ⟨rfl, finesLE_refl _⟩
    have hfacts := returnCore_members_facts s today borrowing book (findMember_eq hm).1 hnd
    cases hres : first_active_reservation s.reservations book.id with
    | some r =>
      have hstate := congrArg Prod.fst
        (process_return_success_res s today lid hl hst hm hb hres)
      rw [hstate]
      exact hfacts
    | none =>
      have hstate := congrArg Prod.fst
        (process_return_success_nores s today lid hl hst hm hb hres)
      rw [hstate]
      exact hfacts

theorem run_members (s : LibState) (ops : List Op)
    (hnd : (s.members.map Member.id).Nodup) :
    (run s ops).members.map Member.id = s.members.map Member.id ∧
    finesLE s.members (run s ops).members := by
  induction ops generalizing s with
  | nil => exact ⟨rfl, finesLE_refl _⟩
  | cons op t ih =>
    have h1 := step_members s op hnd
    have hnd2 : ((step s op).members.map Member.id).Nodup := by
      rw [h1.1]
      exact hnd
    have h2 := ih (step s op) hnd2
    exact ⟨h2.1.trans h1.1, finesLE_trans h1.2 h2.2⟩

theorem saveById_length {α : Type} (getId : α → Nat) (xs : List α) (a : α) :
    (saveById getId xs a).length = xs.length := by
  unfold saveById
  exact List.length_map xs _

theorem process_return_loans (s : LibState) (today : Int) (lid : Nat)
    {borrowing : Loan} {borrower : Member} {book : Book}
    (hl : findLoan s lid = some borrowing)
    (hst : borrowing.status = LoanStatus.borrowed)
    (hm : findMember s borrowing.borrowerId = some borrower)
    (hb : findBook s borrowing.bookId = some book) :
    (process_return_directly s today lid).1.loans =
      saveById Loan.id s.loans
        { borrowing with return_date := some today, status := .returned } := by
  cases hres : first_active_reservation s.reservations book.id with
  | some r =>
    rw [congrArg Prod.fst (process_return_success_res s today lid hl hst hm hb hres),
      returnCore_eq]
  | none =>
    rw [congrArg Prod.fst (process_return_success_nores s today lid hl hst hm hb hres),
      returnCore_eq]

theorem process_return_members (s : LibState) (today : Int) (lid : Nat)
    {borrowing : Loan} {borrower : Member} {book : Book}
    (hl : findLoan s lid = some borrowing)
    (hst : borrowing.status = LoanStatus.borrowed)
    (hm : findMember s borrowing.borrowerId = some borrower)
    (hb : findBook s borrowing.bookId = some book) :
    (process_return_directly s today lid).1.members =
      saveById Member.id s.members (clampDecrement borrower) := by
  cases hres : first_active_reservation s.reservations book.id with
  | some r =>
    rw [congrArg Prod.fst (process_return_success_res s today lid hl hst hm hb hres),
      returnCore_eq]
  | none =>
    rw [congrArg Prod.fst (process_return_success_nores s today lid hl hst hm hb hres),
      returnCore_eq]

theorem approve_return_reservations (s : LibState) (today : Int) (rid : Nat)
    {rr : ReturnRequest} {borrowing : Loan} {borrower : Member} {book : Book}
    (hrr : s.returnReqs.find? (fun x => x.id == rid) = some rr)
    (hpend : rr.status = ReqStatus.pending)
    (hl : findLoan s rr.borrowingId = some borrowing)
    (hst : borrowing.status = LoanStatus.borrowed)
    (hm : findMember s borrowing.borrowerId = some borrower)
    (hb : findBook s borrowing.bookId = some book) :
    (approve_return_request s today rid).1.reservations = s.reservations := by
  cases hres : first_active_reservation s.reservations book.id with
  | some r =>
    rw [congrArg Prod.fst
      (approve_return_success_res s today rid hrr hpend hl hst hm hb hres)]
    rfl
  | none =>
    rw [congrArg Prod.fst
      (approve_return_success_nores s today rid hrr hpend hl hst hm hb hres)]
    rfl

end Lemmas

/-- Claim C2: `calculate_fine` is a pure function of the loan, the day of
evaluation and the daily rate; it returns zero for any loan already returned
(in particular one returned on or before its due date) and for any loan not
overdue, it returns the days past due times the daily rate for an overdue
borrowed loan, and with a nonnegative daily rate the result is never
negative. -/
theorem claim_C2_calculate_fine (today : Int) (l : Loan) (rate : Rat)
    (hr : 0 ≤ rate) :
    (l.status = LoanStatus.returned → l.calculate_fine today rate = 0) ∧
    (l.is_overdue today = false → l.calculate_fine today rate = 0) ∧
    (l.is_overdue today = true →
      l.calculate_fine today rate = ((today - l.due_date : Int) : Rat) * rate) ∧
    0 ≤ l.calculate_fine today rate := by
  refine ⟨?_, ?_, ?_, ?_⟩
  · intro h
    unfold Loan.calculate_fine Loan.is_overdue
    rw [h]
    simp
  · intro h
    unfold Loan.calculate_fine
    rw [h]
    simp
  · intro h
    unfold Loan.calculate_fine
    rw [h]
    simp
  · by_cases h : l.is_overdue today = true
    · have hdue : l.due_date < today := by
        unfold Loan.is_overdue at h
        simp at h
        exact h.1
      unfold Loan.calculate_fine
      rw [h]
      simp only [if_true]
      refine mul_nonneg ?_ hr
      have hpos : (0 : Int) ≤ today - l.due_date := by omega
      exact_mod_cast hpos
    · rw [Bool.not_eq_true] at h
      unfold Loan.calculate_fine
      rw [h]
      simp

/-- Claim C2 check: for the loan due on day 0 evaluated on day 3 at daily
rate 1, the fine is the 3 days past due times the rate, and nonnegative. -/
theorem claim_C2_calculate_fine_wit :
    exLoan.calculate_fine 3 1 = ((3 - exLoan.due_date : Int) : Rat) * 1 ∧
    0 ≤ exLoan.calculate_fine 3 1 :=
  ⟨(claim_C2_calculate_fine 3 exLoan 1 (by norm_num)).2.2.1 (by decide),
   (claim_C2_calculate_fine 3 exLoan 1 (by norm_num)).2.2.2⟩

/-- Claim C5: approving a pending borrow request for a still-available book
creates a borrowed loan due `today` plus the requested duration, marks the
book unavailable, increments the requester's count and marks the request
approved; when the book is no longer available the call fails with
`bookNoLongerAvailable` and the whole state (in particular the still-pending
request) is unchanged. -/
theorem claim_C5_approve_borrow (s : LibState) (today : Int) (rid : Nat)
    (req : BorrowRequest) (book : Book) (requester : Member)
    (hreq : s.borrowReqs.find?
      (fun r => r.id == rid && r.status == ReqStatus.pending) = some req)
    (hbook : findBook s req.bookId = some book)
    (hmem : findMember s req.requesterId = some requester) :
    (book.is_available = true →
      approve_borrow_request s today rid =
        ({ s with
            loans := s.loans ++
              [{ id := s.nextLoanId, bookId := req.bookId,
                 borrowerId := req.requesterId, borrow_date := today,
                 due_date := today + (req.requested_duration_days : Int),
                 return_date := none, status := .borrowed, fine_amount := 0 }],
            books := saveById Book.id s.books { book with is_available := false },
            members := saveById Member.id s.members
              { requester with
                  current_books_count := requester.current_books_count + 1 },
            borrowReqs := saveById BorrowRequest.id s.borrowReqs
              { req with status := .approved },
            nextLoanId := s.nextLoanId + 1 }, .ok [])) ∧
    (book.is_available = false →
      approve_borrow_request s today rid = (s, .error .bookNoLongerAvailable)) :=
  ⟨fun hav => approve_borrow_success s today rid hreq hbook hmem hav,
   fun hav => approve_borrow_failure s today rid hreq hbook hav⟩

/-- Claim C5 check: approving the pending request of `exStateBorrow` on day 0
succeeds. -/
theorem claim_C5_approve_borrow_wit :
    (approve_borrow_request exStateBorrow 0 1).2 = Except.ok [] := by
  rw [(claim_C5_approve_borrow exStateBorrow 0 1 exReq exBook exMember
    rfl rfl rfl).1 rfl]

/-- Claim C9: reserving an available book fails with `bookIsAvailable`;
reserving with an existing active reservation of the same member on the same
book fails with `duplicateRequest`; both failures leave the state unchanged;
otherwise an active reservation expiring 7 days from today is created and
nothing else changes. -/
theorem claim_C9_reserve (s : LibState) (today : Int) (bid mid : Nat)
    (book : Book) (member : Member)
    (hbook : findBook s bid = some book)
    (hmem : findMember s mid = some member) :
    (book.is_available = true →
      reserve_book s today bid mid = (s, .error .bookIsAvailable)) ∧
    (book.is_available = false →
      (s.reservations.any (fun r => r.bookId == bid && r.userId == mid &&
        r.status == ResStatus.active)) = true →
      reserve_book s today bid mid = (s, .error .duplicateRequest)) ∧
    (book.is_available = false →
      (s.reservations.any (fun r => r.bookId == bid && r.userId == mid &&
        r.status == ResStatus.active)) = false →
      reserve_book s today bid mid =
        ({ s with
            reservations := s.reservations ++
              [{ id := s.nextResId, bookId := bid, userId := mid,
                 reservation_date := today, expiry_date := today + 7,
                 status := .active }],
            nextResId := s.nextResId + 1 }, .ok [])) := by
  refine ⟨?_, ?_, ?_⟩
  · intro hav
    unfold reserve_book
    simp [hbook, hmem, hav]
  · intro hav hdup
    unfold reserve_book
    simp [hbook, hmem, hav, hdup]
  · intro hav hdup
    unfold reserve_book
    simp [hbook, hmem, hav, hdup]

/-- Claim C9 check: reserving the available copy fails; reserving the
borrowed copy for member 1 (who holds no active reservation) succeeds with
expiry 7 days out. -/
theorem claim_C9_reserve_wit :
    reserve_book exStateBorrow 0 1 1 = (exStateBorrow, .error .bookIsAvailable) ∧
    reserve_book exStateReturn 10 1 1 =
      ({ exStateReturn with
          reservations := exStateReturn.reservations ++
            [{ id := 3, bookId := 1, userId := 1, reservation_date := 10,
               expiry_date := 17, status := .active }],
          nextResId := 4 }, .ok []) :=
  ⟨(claim_C9_reserve exStateBorrow 0 1 1 exBook exMember rfl rfl).1 rfl,
   (claim_C9_reserve exStateReturn 10 1 1 exBookOut exMemberOne rfl rfl).2.2
     rfl rfl⟩

/-- Claim C7 counterexample: the requester of the pending request is at the
borrowing limit (5 of 5, `can_borrow_books` false), yet
`approve_borrow_request` succeeds, creating a loan, instead of failing with a
member-ineligible error: eligibility is NOT enforced at approval time. -/
theorem claim_C7_counterexample :
    exMemberFull.can_borrow_books = false ∧
    approve_borrow_request exStateFull 0 1 =
      ({ exStateFull with
          loans := [{ id := 1, bookId := 1, borrowerId := 1, borrow_date := 0,
                      due_date := 14, return_date := none, status := .borrowed,
                      fine_amount := 0 }],
          books := [exBookOut],
          members := [{ exMemberFull with current_books_count := 6 }],
          borrowReqs := [{ exReq with status := .approved }],
          nextLoanId := 2 }, .ok []) := by
  constructor
  · decide
  · rfl

/-- Claim C7 (amended): member eligibility is enforced at submission time by
the REST-API borrow endpoint, not at approval: when the member's
`can_borrow_books` is false the API submission fails with `memberIneligible`
and creates nothing, whereas `approve_borrow_request` checks only book
availability. -/
theorem claim_C7_eligibility_at_submit (s : LibState) (bid mid dur : Nat)
    (book : Book) (member : Member)
    (hbook : findBook s bid = some book)
    (hmem : findMember s mid = some member)
    (hin : member.can_borrow_books = false) :
    api_borrow s bid mid dur = (s, .error .memberIneligible) := by
  unfold api_borrow
  simp [hbook, hmem, hin]

/-- Claim C7 check: the API borrow submission by the at-limit member fails
with the member-ineligible error. -/
theorem claim_C7_eligibility_at_submit_wit :
    api_borrow exStateFull 1 1 14 = (exStateFull, .error .memberIneligible) :=
  claim_C7_eligibility_at_submit exStateFull 1 1 14 exBook exMemberFull
    rfl rfl (by decide)

/-- Claim C1 (the code contradicts it): returning the overdue loan (due day 0
standing for 2024-01-01, returned on day 3 standing for 2024-01-04, daily
rate 1.00) succeeds, but the stored `fine_amount` stays 0 and the borrower's
`total_fines` stays 0 instead of 3.00: the return paths set the status to
returned before consulting `is_overdue`, which requires status borrowed, so
the fine branch is unreachable.  The model's own `calculate_fine`, evaluated
on the loan while still borrowed, yields the 3.00 the specification
expects. -/
theorem claim_C1_fine_never_applied :
    exLoan.is_overdue 3 = true ∧
    exLoan.calculate_fine 3 1 = 3 ∧
    process_return_directly exStateC1 3 1 =
      ({ exStateC1 with
          loans := [{ exLoan with return_date := some 3, status := .returned }],
          books := [exBook],
          members := [exMember] }, .ok [Event.returnConfirmation 1]) := by
  refine ⟨by decide, ?_, by rfl⟩
  norm_num [Loan.calculate_fine, Loan.is_overdue, exLoan]

/-- Claim C3: starting from any consistent state, after any sequence of the
modelled operations a book's availability flag is false exactly when some
loan for that book is in status borrowed (hence borrowing and then returning
a book restores availability). -/
theorem claim_C3_availability_invariant (s : LibState) (ops : List Op)
    (h : WF s) :
    ∀ b ∈ (run s ops).books,
      (b.is_available = false ↔
        ∃ l ∈ (run s ops).loans, l.bookId = b.id ∧
          l.status = LoanStatus.borrowed) := by
  obtain ⟨_, _, _, _, hbook, _⟩ := WF_run s ops h
  intro b hb
  have h2 := (hbook b hb).2
  rw [← borrowedCountBook_pos_iff]
  constructor
  · intro hfalse
    rw [hfalse] at h2
    intro hc
    rw [hc] at h2
    simp at h2
  · intro hne
    cases hav : b.is_available
    · rfl
    · rw [hav] at h2
      have h3 : (borrowedCountBook (run s ops).loans b.id == 0) = true := h2.symm
      have h4 : borrowedCountBook (run s ops).loans b.id = 0 := by simpa using h3
      exact absurd h4 hne

/-- Claim C3 check: after borrow approval followed by a direct return, the
invariant forces the book (whose loan is now returned) to be available
again. -/
theorem claim_C3_availability_invariant_wit :
    ({ id := 1, is_available := true } : Book).is_available = true := by
  have h2 := claim_C3_availability_invariant exStateBorrow
    [Op.approveBorrow 0 1, Op.directReturn 5 1] (by decide)
    { id := 1, is_available := true } (by decide)
  cases hav : ({ id := 1, is_available := true } : Book).is_available
  · exfalso
    obtain ⟨l, hl, _, hs⟩ := h2.mp hav
    have hll : l ∈ [exLoanRoundTrip] := hl
    rw [List.mem_singleton] at hll
    subst hll
    exact absurd hs (by decide)
  · rfl

/-- Claim C6: a return of a loan whose status is not borrowed is rejected
with the already-returned error and no state is mutated, on both the direct
path and the approval path; consequently a second direct return of the same
loan after a successful first one fails with the already-returned error and
leaves the post-return state untouched, so fines are applied and counts
decremented at most once per loan. -/
theorem claim_C6_return_guard :
    (∀ (s : LibState) (today : Int) (lid : Nat) (l : Loan),
      findLoan s lid = some l → l.status ≠ LoanStatus.borrowed →
      process_return_directly s today lid = (s, .error .alreadyReturned)) ∧
    (∀ (s : LibState) (today : Int) (rid : Nat) (rr : ReturnRequest) (l : Loan),
      s.returnReqs.find? (fun x => x.id == rid) = some rr →
      rr.status = ReqStatus.pending →
      findLoan s rr.borrowingId = some l → l.status ≠ LoanStatus.borrowed →
      approve_return_request s today rid = (s, .error .alreadyReturned)) ∧
    (∀ (s : LibState) (today today2 : Int) (lid : Nat) (l : Loan) (m : Member)
        (b : Book),
      findLoan s lid = some l → l.status = LoanStatus.borrowed →
      findMember s l.borrowerId = some m → findBook s l.bookId = some b →
      process_return_directly (process_return_directly s today lid).1 today2 lid
        = ((process_return_directly s today lid).1, .error .alreadyReturned)) := by
  refine ⟨?_, ?_, ?_⟩
  · intro s today lid l hl hst
    exact process_return_guard s today lid hl hst
  · intro s today rid rr l hrr hpend hl hst
    exact approve_return_guard s today rid hrr hpend hl hst
  · intro s today today2 lid l m b hl hst hm hb
    have hloans := process_return_loans s today lid hl hst hm hb
    have hfind : findLoan (process_return_directly s today lid).1 lid =
        some { l with return_date := some today, status := .returned } := by
      unfold findLoan
      rw [hloans]
      unfold findLoan at hl
      exact find?_saveById _ lid hl rfl
    exact process_return_guard _ today2 lid hfind (by simp)

/-- Claim C6 check: directly returning the loan of `exStateReturn` twice, the
second call fails with the already-returned error and changes nothing. -/
theorem claim_C6_return_guard_wit :
    process_return_directly (process_return_directly exStateReturn 3 1).1 4 1
      = ((process_return_directly exStateReturn 3 1).1,
         .error .alreadyReturned) :=
  claim_C6_return_guard.2.2 exStateReturn 3 4 1 exLoan exMemberOne exBookOut
    rfl rfl rfl rfl

/-- Claim C8: starting from any consistent state, after any sequence of the
modelled operations every member's `current_books_count` equals the number of
their loans in status borrowed; and a return that would decrement a count
already at zero clamps it to zero (and logs) instead of failing. -/
theorem claim_C8_count_invariant :
    (∀ (s : LibState) (ops : List Op), WF s →
      ∀ m ∈ (run s ops).members,
        m.current_books_count = borrowedCountMember (run s ops).loans m.id) ∧
    (∀ (s : LibState) (today : Int) (lid : Nat) (l : Loan) (mb : Member)
        (b : Book),
      findLoan s lid = some l → l.status = LoanStatus.borrowed →
      findMember s l.borrowerId = some mb → findBook s l.bookId = some b →
      mb.current_books_count = 0 →
      findMember (process_return_directly s today lid).1 l.borrowerId
          = some (clampDecrement mb) ∧
        (clampDecrement mb).current_books_count = 0) := by
  constructor
  · intro s ops h m hm
    exact (WF_run s ops h).2.2.2.2.2 m hm
  · intro s today lid l mb b hl hst hm hb hzero
    constructor
    · have hmembers := process_return_members s today lid hl hst hm hb
      unfold findMember
      rw [hmembers]
      unfold findMember at hm
      exact find?_saveById _ l.borrowerId hm (clampDecrement_id mb)
    · unfold clampDecrement
      rw [if_neg (by omega)]

/-- Claim C8 check: after approving the borrow request the requester's count
(now 1) matches their count of borrowed loans; and returning in the drifted
zero-count state clamps the count at zero. -/
theorem claim_C8_count_invariant_wit :
    ({ exMember with current_books_count := 1 } : Member).current_books_count
        = borrowedCountMember (run exStateBorrow [Op.approveBorrow 0 1]).loans 1 ∧
    (clampDecrement exMemberZero).current_books_count = 0 := by
  constructor
  · exact claim_C8_count_invariant.1 exStateBorrow [Op.approveBorrow 0 1] (by decide)
      { exMember with current_books_count := 1 } (by decide)
  · exact (claim_C8_count_invariant.2 exStateClamp 3 1 exLoan exMemberZero exBookOut
      rfl rfl rfl rfl rfl).2

/-- Claim C10: `total_fines` is monotonically non-decreasing: across any
sequence of the modelled operations each member row (matched positionally,
with its id preserved) ends with a fine balance at least its starting one —
no modelled operation ever subtracts from it. -/
theorem claim_C10_fines_monotone (s : LibState) (ops : List Op)
    (hnd : (s.members.map Member.id).Nodup) :
    List.Forall₂ (fun a b => a.id = b.id ∧ a.total_fines ≤ b.total_fines)
      s.members (run s ops).members :=
  (run_members s ops hnd).2

/-- Claim C10 check: the borrower's fine balance does not decrease across a
direct return. -/
theorem claim_C10_fines_monotone_wit :
    List.Forall₂ (fun a b => a.id = b.id ∧ a.total_fines ≤ b.total_fines)
      exStateReturn.members (run exStateReturn [Op.directReturn 3 1]).members :=
  claim_C10_fines_monotone exStateReturn [Op.directReturn 3 1] (by decide)

/-- Claim C4 counterexample: the book of `exStateReturn` has two active
reservations, the earliest being reservation 1; approving the pending return
request emits the reservation-available notification for reservation 1 yet
leaves BOTH reservations active — the approval path never marks the selected
reservation fulfilled, so the claim fails on that return path. -/
theorem claim_C4_counterexample :
    (approve_return_request exStateReturn 3 1).2 =
      .ok [Event.returnConfirmation 1, Event.reservationAvailable 1] ∧
    (approve_return_request exStateReturn 3 1).1.reservations
      = [exRes2, exRes1] :=
  ⟨rfl, rfl⟩

/-- Claim C4 (amended): when a book with at least one active reservation is
returned, the engine selects an active reservation of that book with the
earliest `reservation_date`; on DIRECT return processing that reservation is
marked fulfilled, every other reservation row is left untouched, the
reservation-available notification for it is emitted, and no loan row is
created; on return-request APPROVAL the same earliest reservation is only
notified and the reservation rows are left unchanged. -/
theorem claim_C4_fulfillment :
    (∀ (s : LibState) (today : Int) (lid : Nat) (borrowing : Loan)
        (borrower : Member) (book : Book) (x : Reservation),
      findLoan s lid = some borrowing →
      borrowing.status = LoanStatus.borrowed →
      findMember s borrowing.borrowerId = some borrower →
      findBook s borrowing.bookId = some book →
      x ∈ s.reservations → x.bookId = book.id → x.status = ResStatus.active →
      ∃ r, first_active_reservation s.reservations book.id = some r ∧
        r ∈ s.reservations ∧ r.bookId = book.id ∧ r.status = ResStatus.active ∧
        (∀ y ∈ s.reservations, y.bookId = book.id → y.status = ResStatus.active →
          r.reservation_date ≤ y.reservation_date) ∧
        process_return_directly s today lid =
          ({ returnCore s today borrowing borrower book with
              reservations := saveById Reservation.id s.reservations
                ({ r with status := .fulfilled }) },
           .ok [Event.returnConfirmation borrowing.id,
                Event.reservationAvailable r.id]) ∧
        (∀ y ∈ (process_return_directly s today lid).1.reservations,
          y.id ≠ r.id → y ∈ s.reservations) ∧
        (process_return_directly s today lid).1.loans.length
          = s.loans.length) ∧
    (∀ (s : LibState) (today : Int) (rid : Nat) (rr : ReturnRequest)
        (borrowing : Loan) (borrower : Member) (book : Book) (x : Reservation),
      s.returnReqs.find? (fun a => a.id == rid) = some rr →
      rr.status = ReqStatus.pending →
      findLoan s rr.borrowingId = some borrowing →
      borrowing.status = LoanStatus.borrowed →
      findMember s borrowing.borrowerId = some borrower →
      findBook s borrowing.bookId = some book →
      x ∈ s.reservations → x.bookId = book.id → x.status = ResStatus.active →
      ∃ r, first_active_reservation s.reservations book.id = some r ∧
        (∀ y ∈ s.reservations, y.bookId = book.id → y.status = ResStatus.active →
          r.reservation_date ≤ y.reservation_date) ∧
        (approve_return_request s today rid).1.reservations = s.reservations ∧
        (approve_return_request s today rid).2 =
          .ok [Event.returnConfirmation borrowing.id,
               Event.reservationAvailable r.id]) := by
  constructor
  · intro s today lid borrowing borrower book x hl hst hm hb hx hxb hxs
    obtain ⟨r, hres⟩ :=
      first_active_reservation_isSome s.reservations book.id hx hxb hxs
    obtain ⟨hrmem, hrb, hrs, hmin⟩ :=
      first_active_reservation_spec s.reservations book.id hres
    refine ⟨r, hres, hrmem, hrb, hrs, hmin, ?_, ?_, ?_⟩
    · exact process_return_success_res s today lid hl hst hm hb hres
    · intro y hy hne
      rw [congrArg Prod.fst
        (process_return_success_res s today lid hl hst hm hb hres)] at hy
      rcases mem_saveById hy with rfl | ⟨hy2, _⟩
      · exact absurd rfl hne
      · exact hy2
    · rw [process_return_loans s today lid hl hst hm hb, saveById_length]
  · intro s today rid rr borrowing borrower book x hrr hpend hl hst hm hb hx hxb hxs
    obtain ⟨r, hres⟩ :=
      first_active_reservation_isSome s.reservations book.id hx hxb hxs
    obtain ⟨hrmem, hrb, hrs, hmin⟩ :=
      first_active_reservation_spec s.reservations book.id hres
    refine ⟨r, hres, hmin, ?_, ?_⟩
    · exact approve_return_reservations s today rid hrr hpend hl hst hm hb
    · rw [congrArg Prod.snd
        (approve_return_success_res s today rid hrr hpend hl hst hm hb hres)]

/-- Claim C4 check: directly returning the book of `exStateReturn` fulfils
reservation 1 (timestamp 0, earlier than reservation 2) and notifies it,
creating no loan. -/
theorem claim_C4_fulfillment_wit :
    first_active_reservation exStateReturn.reservations exBookOut.id
        = some exRes1 ∧
    process_return_directly exStateReturn 3 1 =
      ({ returnCore exStateReturn 3 exLoan exMemberOne exBookOut with
          reservations := saveById Reservation.id exStateReturn.reservations
            ({ exRes1 with status := .fulfilled }) },
       .ok [Event.returnConfirmation exLoan.id,
            Event.reservationAvailable exRes1.id]) ∧
    (process_return_directly exStateReturn 3 1).1.loans.length
      = exStateReturn.loans.length := by
  obtain ⟨r, hres, _, _, _, _, heq, _, hlen⟩ :=
    claim_C4_fulfillment.1 exStateReturn 3 1 exLoan exMemberOne exBookOut exRes1
      rfl rfl rfl rfl (by decide) rfl rfl
  have hcomp : first_active_reservation exStateReturn.reservations exBookOut.id
      = some exRes1 := rfl
  have hr : exRes1 = r := by
    have h12 := hcomp.symm.trans hres
    injection h12
  subst hr
  exact ⟨hres, heq, hlen⟩

end Library
